import Mathlib

/-!
Shallow embedding of the output layer of the iota-sdk repository
(src/sdk/src/types/block/output/{basic,foundry}.rs) together with the
supporting value types.  Components of the repository that are not part of
the excerpted sources (unlock conditions, features, native tokens, token
schemes, the rent model and the packable machinery) are modelled from the
specification; each such definition carries a doc comment starting with
`Modelled from the spec:`.  Machine integers (u32/u64/U256) are modelled as
`Nat`; the source only subtracts under explicit guards, which the theorems
mirror with hypotheses.
-/

namespace IotaSdk

/-- Modelled from the spec: addresses are opaque fixed-width values
(an Ed25519 address, an alias address or an NFT address, discriminated by a
one-byte kind tag 0 / 8 / 16); the 32-byte body is modelled as a `Nat`. -/
inductive Address where
  | ed25519 (body : Nat)
  | aliasAddr (aliasId : Nat)
  | nft (body : Nat)
deriving DecidableEq, Repr

/-- Modelled from the spec: the one-byte kind tag of an address. -/
def Address.kind : Address → Nat
  | .ed25519 _ => 0
  | .aliasAddr _ => 8
  | .nft _ => 16

/-- Modelled from the spec: unlock-condition variants with their one-byte
kind tags (Address=0, StorageDepositReturn=1, Timelock=2, Expiration=3,
ImmutableAliasAddress=6). -/
inductive UnlockCondition where
  | address (addr : Address)
  | storageDepositReturn (returnAddress : Address) (amount : Nat)
  | timelock (timestamp : Nat)
  | expiration (returnAddress : Address) (timestamp : Nat)
  | immutableAliasAddress (aliasId : Nat)
deriving DecidableEq, Repr

/-- Modelled from the spec: the kind discriminant of an unlock condition. -/
def UnlockCondition.kind : UnlockCondition → Nat
  | .address _ => 0
  | .storageDepositReturn _ _ => 1
  | .timelock _ => 2
  | .expiration _ _ => 3
  | .immutableAliasAddress _ => 6

/-- Modelled from the spec: the `Ord` instance of `UnlockCondition` compares
kind discriminants, which is what makes a `BTreeSet<UnlockCondition>`
deduplicate by kind. -/
def UnlockCondition.cmp (a b : UnlockCondition) : Ordering :=
  compare a.kind b.kind

/-- Modelled from the spec: feature variants with their one-byte kind tags
(Sender=0, Issuer=1, Metadata=2, Tag=3). -/
inductive Feature where
  | sender (addr : Address)
  | issuer (addr : Address)
  | metadata (data : List Nat)
  | tag (data : List Nat)
deriving DecidableEq, Repr

/-- Modelled from the spec: the kind discriminant of a feature. -/
def Feature.kind : Feature → Nat
  | .sender _ => 0
  | .issuer _ => 1
  | .metadata _ => 2
  | .tag _ => 3

/-- Modelled from the spec: the `Ord` instance of `Feature` compares kind
discriminants. -/
def Feature.cmp (a b : Feature) : Ordering :=
  compare a.kind b.kind

/-- Modelled from the spec: a native token is a token-id (an opaque 38-byte
value, modelled as `Nat`) together with a nonzero amount (a `U256`, modelled
as `Nat`). -/
structure NativeToken where
  token_id : Nat
  amount : Nat
deriving DecidableEq, Repr

/-- Modelled from the spec: the derived `Ord` instance of `NativeToken` is
lexicographic on (token_id, amount). -/
def NativeToken.cmp (a b : NativeToken) : Ordering :=
  match compare a.token_id b.token_id with
  | Ordering.eq => compare a.amount b.amount
  | o => o

/-- Modelled from the spec: `BTreeSet::insert` on a list sorted by `cmp`.
When an equal element is already present the existing one is kept. -/
def btreeInsert {α : Type} (cmp : α → α → Ordering) (x : α) : List α → List α
  | [] => [x]
  | y :: ys =>
    match cmp x y with
    | Ordering.lt => x :: y :: ys
    | Ordering.eq => y :: ys
    | Ordering.gt => y :: btreeInsert cmp x ys

/-- Modelled from the spec: `BTreeSet::replace` on a list sorted by `cmp`.
When an equal element is already present it is overwritten by the new one. -/
def btreeReplace {α : Type} (cmp : α → α → Ordering) (x : α) : List α → List α
  | [] => [x]
  | y :: ys =>
    match cmp x y with
    | Ordering.lt => x :: y :: ys
    | Ordering.eq => x :: ys
    | Ordering.gt => y :: btreeReplace cmp x ys

/-- Modelled from the spec: collecting an iterator into a `BTreeSet` inserts
the elements one by one (keeping the first of any equal pair). -/
def btreeOfList {α : Type} (cmp : α → α → Ordering) (l : List α) : List α :=
  l.foldl (fun s x => btreeInsert cmp x s) []

/-- Modelled from the spec: the simple token scheme tracks `minted_tokens`,
`melted_tokens` and `maximum_supply`, all `U256` values modelled as `Nat`;
the syntactic rule `melted_tokens <= minted_tokens` is quoted by the source
(foundry.rs, destruction) and appears as a hypothesis of the theorems. -/
structure SimpleTokenScheme where
  minted_tokens : Nat
  melted_tokens : Nat
  maximum_supply : Nat
deriving DecidableEq, Repr

/-- Modelled from the spec: the token scheme enum currently has the single
`Simple` variant (kind tag 0). -/
inductive TokenScheme where
  | simple (s : SimpleTokenScheme)
deriving DecidableEq, Repr

/-- Helper projecting the single variant of `TokenScheme`. -/
def TokenScheme.simpleScheme : TokenScheme → SimpleTokenScheme
  | .simple s => s

/-- State-transition errors of the verifier
(src/sdk/src/types/block/output/foundry.rs uses this subset). -/
inductive StateTransitionError where
  | mutatedImmutableField
  | nonMonotonicallyIncreasingNativeTokens
  | inconsistentNativeTokensMint
  | inconsistentNativeTokensTransition
  | inconsistentNativeTokensMeltBurn
  | inconsistentNativeTokensFoundryCreation
  | inconsistentNativeTokensFoundryDestruction
  | inconsistentFoundrySerialNumber
  | missingAliasForFoundry
deriving DecidableEq, Repr

/-- The foundry output record (foundry.rs lines 280-291); `amount` is a u64,
`serial_number` a u32, both modelled as `Nat`. -/
structure FoundryOutput where
  amount : Nat
  native_tokens : List NativeToken
  serial_number : Nat
  token_scheme : TokenScheme
  unlock_conditions : List UnlockCondition
  features : List Feature
  immutable_features : List Feature
deriving DecidableEq, Repr

/-- Modelled from the spec: `UnlockConditions::immutable_alias_address`
returns the condition of kind ImmutableAliasAddress, if present. -/
def UnlockConditions.immutable_alias_address : List UnlockCondition → Option Nat
  | [] => none
  | UnlockCondition.immutableAliasAddress a :: _ => some a
  | _ :: rest => UnlockConditions.immutable_alias_address rest

/-- Alias address of a foundry (foundry.rs lines 364-370).  The source
unwraps under the builder-enforced invariant that the condition is present;
the model returns an `Option` and the theorems carry the invariant as a
hypothesis. -/
def FoundryOutput.alias_address (f : FoundryOutput) : Option Nat :=
  UnlockConditions.immutable_alias_address f.unlock_conditions

/-- Totalised alias address, defaulting to 0 where the source would panic
on a foundry without its ImmutableAliasAddress condition. -/
def FoundryOutput.alias_addressD (f : FoundryOutput) : Nat :=
  f.alias_address.getD 0

/-- Modelled from the spec: `FoundryId = hash(alias_address, serial_number,
token_scheme_kind)` and `TokenId = hash(FoundryId)`; the hash is opaque and
injective on the inputs (the scheme kind is constantly 0), modelled by the
injective pairing of the alias address and the serial number. -/
def FoundryOutput.token_id (f : FoundryOutput) : Nat :=
  Nat.pair f.alias_addressD f.serial_number

/-- Shorthand for the simple token scheme of a foundry. -/
def FoundryOutput.scheme (f : FoundryOutput) : SimpleTokenScheme :=
  f.token_scheme.simpleScheme

/-- Modelled from the spec: the aggregate native-token balance maps of a
`ValidationContext` (`BTreeMap<TokenId, U256>`), as association lists. -/
abbrev NativeTokenMap := List (Nat × Nat)

/-- Modelled from the spec: `map.get(&k).copied().unwrap_or_default()`. -/
def mapGetOrZero (m : NativeTokenMap) (k : Nat) : Nat :=
  (m.lookup k).getD 0

/-- Modelled from the spec: `map.contains_key(&k)`. -/
def mapContainsKey (m : NativeTokenMap) (k : Nat) : Bool :=
  (m.lookup k).isSome

/-- Foundry state transition without the full context
(FoundryOutput::transition_inner, foundry.rs lines 400-476).  The three-way
`match` on `input_tokens.cmp(&output_tokens)` is rendered as the equivalent
ladder on `<` and `=`. -/
def FoundryOutput.transition_inner (current_state next_state : FoundryOutput)
    (input_native_tokens output_native_tokens : NativeTokenMap) :
    Except StateTransitionError Unit :=
  if current_state.alias_address ≠ next_state.alias_address
      ∨ current_state.serial_number ≠ next_state.serial_number
      ∨ current_state.immutable_features ≠ next_state.immutable_features then
    Except.error StateTransitionError.mutatedImmutableField
  else if current_state.scheme.maximum_supply ≠ next_state.scheme.maximum_supply then
    Except.error StateTransitionError.mutatedImmutableField
  else if current_state.scheme.minted_tokens > next_state.scheme.minted_tokens
      ∨ current_state.scheme.melted_tokens > next_state.scheme.melted_tokens then
    Except.error StateTransitionError.nonMonotonicallyIncreasingNativeTokens
  else if mapGetOrZero input_native_tokens next_state.token_id
      < mapGetOrZero output_native_tokens next_state.token_id then
    -- Mint
    if next_state.scheme.minted_tokens - current_state.scheme.minted_tokens
        ≠ mapGetOrZero output_native_tokens next_state.token_id
          - mapGetOrZero input_native_tokens next_state.token_id then
      Except.error StateTransitionError.inconsistentNativeTokensMint
    else if current_state.scheme.melted_tokens ≠ next_state.scheme.melted_tokens then
      Except.error StateTransitionError.inconsistentNativeTokensMint
    else
      Except.ok ()
  else if mapGetOrZero input_native_tokens next_state.token_id
      = mapGetOrZero output_native_tokens next_state.token_id then
    -- Transition
    if current_state.scheme.minted_tokens ≠ next_state.scheme.minted_tokens
        ∨ current_state.scheme.melted_tokens ≠ next_state.scheme.melted_tokens then
      Except.error StateTransitionError.inconsistentNativeTokensTransition
    else
      Except.ok ()
  else
    -- Melt / Burn
    if current_state.scheme.melted_tokens ≠ next_state.scheme.melted_tokens
        ∧ current_state.scheme.minted_tokens ≠ next_state.scheme.minted_tokens then
      Except.error StateTransitionError.inconsistentNativeTokensMeltBurn
    else if next_state.scheme.melted_tokens - current_state.scheme.melted_tokens
        > mapGetOrZero input_native_tokens next_state.token_id
          - mapGetOrZero output_native_tokens next_state.token_id then
      Except.error StateTransitionError.inconsistentNativeTokensMeltBurn
    else
      Except.ok ()

/-- Modelled from the spec: the Alias output; only the `foundry_counter`
field is consulted by the foundry verifier. -/
structure AliasOutputModel where
  foundry_counter : Nat
deriving DecidableEq, Repr

/-- The basic output record (basic.rs lines 278-289). -/
structure BasicOutput where
  amount : Nat
  mana : Nat
  native_tokens : List NativeToken
  unlock_conditions : List UnlockCondition
  features : List Feature
deriving DecidableEq, Repr

/-- The output enum restricted to the variants the embedded code consults
(the chain maps of a validation context hold full outputs; the foundry
verifier pattern-matches on the Alias variant). -/
inductive Output where
  | aliasOutput (a : AliasOutputModel)
  | basic (b : BasicOutput)
  | foundry (f : FoundryOutput)
deriving DecidableEq, Repr

/-- Modelled from the spec: the read-only validation context carrying the
aggregate input/output native-token balances and the input/output chain
maps of the transaction (chain ids modelled as `Nat`; the chain id of an
alias address is the alias id itself). -/
structure ValidationContext where
  input_chains : List (Nat × Output)
  output_chains : List (Nat × Output)
  input_native_tokens : NativeTokenMap
  output_native_tokens : NativeTokenMap

/-- Foundry creation check (StateTransitionVerifier::creation for
FoundryOutput, foundry.rs lines 480-510). -/
def FoundryOutput.creation (next_state : FoundryOutput) (context : ValidationContext) :
    Except StateTransitionError Unit :=
  match context.input_chains.lookup next_state.alias_addressD,
      context.output_chains.lookup next_state.alias_addressD with
  | some (Output.aliasOutput input_alias), some (Output.aliasOutput output_alias) =>
    if input_alias.foundry_counter ≥ next_state.serial_number
        ∨ next_state.serial_number > output_alias.foundry_counter then
      Except.error StateTransitionError.inconsistentFoundrySerialNumber
    else if mapContainsKey context.input_native_tokens next_state.token_id then
      Except.error StateTransitionError.inconsistentNativeTokensFoundryCreation
    else if mapGetOrZero context.output_native_tokens next_state.token_id
        ≠ next_state.scheme.minted_tokens
        ∨ next_state.scheme.melted_tokens ≠ 0 then
      Except.error StateTransitionError.inconsistentNativeTokensFoundryCreation
    else
      Except.ok ()
  | _, _ => Except.error StateTransitionError.missingAliasForFoundry

/-- Foundry destruction check (StateTransitionVerifier::destruction for
FoundryOutput, foundry.rs lines 525-543).  The subtraction is guarded in
the source by the syntactic rule `melted_tokens <= minted_tokens`. -/
def FoundryOutput.destruction (current_state : FoundryOutput) (context : ValidationContext) :
    Except StateTransitionError Unit :=
  if mapContainsKey context.output_native_tokens current_state.token_id then
    Except.error StateTransitionError.inconsistentNativeTokensFoundryDestruction
  else if current_state.scheme.minted_tokens - current_state.scheme.melted_tokens
      ≠ mapGetOrZero context.input_native_tokens current_state.token_id then
    Except.error StateTransitionError.inconsistentNativeTokensFoundryDestruction
  else
    Except.ok ()

/-- Modelled from the spec: the rent structure of the protocol parameters,
carrying the byte-cost factor and the data/key byte weights. -/
structure RentStructure where
  v_byte_cost : Nat
  v_byte_factor_data : Nat
  v_byte_factor_key : Nat
deriving DecidableEq, Repr

/-- Builder amount policy (OutputBuilderAmount): a fixed amount or the
minimum storage deposit computed from a rent structure. -/
inductive OutputBuilderAmount where
  | amount (a : Nat)
  | minimumStorageDeposit (rent_structure : RentStructure)
deriving DecidableEq, Repr

/-- Modelled from the spec: protocol parameters carry the token supply and
the rent structure. -/
structure ProtocolParameters where
  token_supply : Nat
  rent_structure : RentStructure
deriving DecidableEq, Repr

/-- Builder and validation errors (the subset reached by the embedded
code paths). -/
inductive Error where
  | invalidFoundryZeroSerialNumber
  | missingAddressUnlockCondition
  | disallowedUnlockCondition
  | disallowedFeature
  | nativeTokensNotUniqueSorted
  | unlockConditionsNotUniqueSorted
  | featuresNotUniqueSorted
  | invalidOutputAmount
deriving DecidableEq, Repr

/-- Decides whether a list is strictly sorted by the key `f` (hence
unique by key), as the packable collections require. -/
def strictSortedBy {α : Type} (f : α → Nat) : List α → Bool
  | [] => true
  | [_] => true
  | x :: y :: rest => decide (f x < f y) && strictSortedBy f (y :: rest)

/-- Modelled from the spec: the packed byte size of an address (one kind
byte plus the 32-byte body). -/
def Address.packedSize : Address → Nat := fun _ => 33

/-- Modelled from the spec: the packed byte size of an unlock condition
(kind byte plus payload; amounts are u64, timestamps u32). -/
def UnlockCondition.packedSize : UnlockCondition → Nat
  | .address a => 1 + a.packedSize
  | .storageDepositReturn a _ => 1 + a.packedSize + 8
  | .timelock _ => 1 + 4
  | .expiration a _ => 1 + a.packedSize + 4
  | .immutableAliasAddress _ => 1 + 33

/-- Modelled from the spec: the packed byte size of a feature (metadata
carries a u16 length prefix, tag a u8 length prefix). -/
def Feature.packedSize : Feature → Nat
  | .sender a => 1 + a.packedSize
  | .issuer a => 1 + a.packedSize
  | .metadata d => 1 + 2 + d.length
  | .tag d => 1 + 1 + d.length

/-- Modelled from the spec: the packed byte size of a native token
(38-byte token id plus 32-byte U256 amount). -/
def NativeToken.packedSize : NativeToken → Nat := fun _ => 38 + 32

/-- Modelled from the spec: the packed byte size of a token scheme (kind
byte plus three U256 counters). -/
def TokenScheme.packedSize : TokenScheme → Nat := fun _ => 1 + 96

/-- Sum of the packed sizes of a collection's elements. -/
def packedSizeSum {α : Type} (f : α → Nat) (l : List α) : Nat :=
  (l.map f).sum

/-- Modelled from the spec: the rent byte offset shared by all outputs
(Output::build_byte_offset): the output id weighted as a key field plus the
block id and milestone index/timestamp weighted as data fields. -/
def rentByteOffset (rs : RentStructure) : Nat :=
  rs.v_byte_factor_key * 34 + rs.v_byte_factor_data * 40

/-- Weighted byte count of the fields of a basic output (Rent for
BasicOutput/BasicOutputBuilder): kind byte, u64 amount, u64 mana and the
three length-prefixed collections, all weighted as data.  The weight does
not depend on the amount value, only on its fixed width. -/
def basicFieldsWeight (rs : RentStructure) (native_tokens : List NativeToken)
    (unlock_conditions : List UnlockCondition) (features : List Feature) : Nat :=
  rs.v_byte_factor_data *
    (1 + 8 + 8
      + (1 + packedSizeSum NativeToken.packedSize native_tokens)
      + (1 + packedSizeSum UnlockCondition.packedSize unlock_conditions)
      + (1 + packedSizeSum Feature.packedSize features))

/-- Modelled from the spec: weighted byte count of the fields of a foundry
output (kind, u64 amount, native tokens, u32 serial number, token scheme
and the three length-prefixed collections, all weighted as data). -/
def foundryFieldsWeight (rs : RentStructure) (native_tokens : List NativeToken)
    (token_scheme : TokenScheme) (unlock_conditions : List UnlockCondition)
    (features immutable_features : List Feature) : Nat :=
  rs.v_byte_factor_data *
    (1 + 8
      + (1 + packedSizeSum NativeToken.packedSize native_tokens)
      + 4 + token_scheme.packedSize
      + (1 + packedSizeSum UnlockCondition.packedSize unlock_conditions)
      + (1 + packedSizeSum Feature.packedSize features)
      + (1 + packedSizeSum Feature.packedSize immutable_features))

/-- Modelled from the spec: the rent cost converts a weighted byte count
(offset plus fields) into a minimum token amount via the byte-cost
factor. -/
def rentCostOf (rs : RentStructure) (fieldsWeight : Nat) : Nat :=
  rs.v_byte_cost * (rentByteOffset rs + fieldsWeight)

/-- Modelled from the spec: the allowed unlock-condition kinds of a basic
output (Address, StorageDepositReturn, Timelock, Expiration). -/
def BasicOutput.ALLOWED_UNLOCK_CONDITIONS : List Nat := [0, 1, 2, 3]

/-- Modelled from the spec: the allowed feature kinds of a basic output
(Sender, Metadata, Tag). -/
def BasicOutput.ALLOWED_FEATURES : List Nat := [0, 2, 3]

/-- Modelled from the spec: the allowed unlock-condition kinds of a foundry
output (ImmutableAliasAddress only). -/
def FoundryOutput.ALLOWED_UNLOCK_CONDITIONS : List Nat := [6]

/-- Modelled from the spec: the allowed feature kinds of a foundry output
(Metadata only), for both mutable and immutable features. -/
def FoundryOutput.ALLOWED_FEATURES : List Nat := [2]

/-- Modelled from the spec: `verify_allowed_unlock_conditions` rejects any
present kind outside the allow-list. -/
def verify_allowed_unlock_conditions (l : List UnlockCondition) (allowed : List Nat) :
    Except Error Unit :=
  if l.all (fun u => allowed.contains u.kind) then Except.ok ()
  else Except.error Error.disallowedUnlockCondition

/-- Modelled from the spec: `verify_allowed_features` rejects any present
kind outside the allow-list. -/
def verify_allowed_features (l : List Feature) (allowed : List Nat) : Except Error Unit :=
  if l.all (fun f => allowed.contains f.kind) then Except.ok ()
  else Except.error Error.disallowedFeature

/-- Modelled from the spec: `UnlockConditions::address` returns the
condition of kind Address, if present. -/
def UnlockConditions.address_condition : List UnlockCondition → Option Address
  | [] => none
  | UnlockCondition.address a :: _ => some a
  | _ :: rest => UnlockConditions.address_condition rest

/-- Unlock-condition verification of a basic output (basic.rs lines
408-418, VERIFY = true): an Address condition must be present and every
kind must be allowed. -/
def verify_unlock_conditions_basic (l : List UnlockCondition) : Except Error Unit :=
  if (UnlockConditions.address_condition l).isNone then
    Except.error Error.missingAddressUnlockCondition
  else verify_allowed_unlock_conditions l BasicOutput.ALLOWED_UNLOCK_CONDITIONS

/-- Unlock-condition verification of a foundry output (foundry.rs lines
605-611): an ImmutableAliasAddress condition must be present and every
kind must be allowed. -/
def verify_unlock_conditions_foundry (l : List UnlockCondition) : Except Error Unit :=
  if (UnlockConditions.immutable_alias_address l).isNone then
    Except.error Error.missingAddressUnlockCondition
  else verify_allowed_unlock_conditions l FoundryOutput.ALLOWED_UNLOCK_CONDITIONS

/-- Modelled from the spec: `UnlockConditions::from_set` turns the
builder's kind-sorted set into the validated collection; uniqueness by
kind holds for every set the builders produce and is re-checked here. -/
def UnlockConditions.from_set (l : List UnlockCondition) :
    Except Error (List UnlockCondition) :=
  if strictSortedBy UnlockCondition.kind l then Except.ok l
  else Except.error Error.unlockConditionsNotUniqueSorted

/-- Modelled from the spec: `Features::from_set`, as for unlock
conditions. -/
def Features.from_set (l : List Feature) : Except Error (List Feature) :=
  if strictSortedBy Feature.kind l then Except.ok l
  else Except.error Error.featuresNotUniqueSorted

/-- Modelled from the spec: `NativeTokens::from_set` requires unique token
ids (the builder set is ordered by (token_id, amount), so two amounts for
one token id are rejected here). -/
def NativeTokens.from_set (l : List NativeToken) : Except Error (List NativeToken) :=
  if strictSortedBy NativeToken.token_id l then Except.ok l
  else Except.error Error.nativeTokensNotUniqueSorted

/-- First element of the given kind, as the kind-keyed registries expose
their entries. -/
def findByKind {α : Type} (kindOf : α → Nat) (k : Nat) (l : List α) : Option α :=
  l.find? (fun x => kindOf x == k)

/-- The basic output builder (basic.rs lines 35-41). -/
structure BasicOutputBuilder where
  amount : OutputBuilderAmount
  mana : Nat
  native_tokens : List NativeToken
  unlock_conditions : List UnlockCondition
  features : List Feature
deriving DecidableEq, Repr

/-- BasicOutputBuilder::new_with_amount (basic.rs lines 45-48). -/
def BasicOutputBuilder.new_with_amount (amount : Nat) : BasicOutputBuilder :=
  { amount := OutputBuilderAmount.amount amount
    mana := 0, native_tokens := [], unlock_conditions := [], features := [] }

/-- BasicOutputBuilder::new_with_minimum_storage_deposit (basic.rs 52-55). -/
def BasicOutputBuilder.new_with_minimum_storage_deposit (rs : RentStructure) :
    BasicOutputBuilder :=
  { amount := OutputBuilderAmount.minimumStorageDeposit rs
    mana := 0, native_tokens := [], unlock_conditions := [], features := [] }

/-- BasicOutputBuilder::with_amount (basic.rs lines 68-72). -/
def BasicOutputBuilder.with_amount (b : BasicOutputBuilder) (amount : Nat) :
    BasicOutputBuilder :=
  { b with amount := OutputBuilderAmount.amount amount }

/-- BasicOutputBuilder::with_mana (basic.rs lines 82-86). -/
def BasicOutputBuilder.with_mana (b : BasicOutputBuilder) (mana : Nat) :
    BasicOutputBuilder :=
  { b with mana := mana }

/-- BasicOutputBuilder::add_native_token (basic.rs lines 89-93). -/
def BasicOutputBuilder.add_native_token (b : BasicOutputBuilder) (t : NativeToken) :
    BasicOutputBuilder :=
  { b with native_tokens := btreeInsert NativeToken.cmp t b.native_tokens }

/-- BasicOutputBuilder::add_unlock_condition (basic.rs lines 102-107):
insert-if-absent-by-kind. -/
def BasicOutputBuilder.add_unlock_condition (b : BasicOutputBuilder)
    (u : UnlockCondition) : BasicOutputBuilder :=
  { b with unlock_conditions := btreeInsert UnlockCondition.cmp u b.unlock_conditions }

/-- BasicOutputBuilder::replace_unlock_condition (basic.rs lines 119-123):
insert-or-overwrite-by-kind. -/
def BasicOutputBuilder.replace_unlock_condition (b : BasicOutputBuilder)
    (u : UnlockCondition) : BasicOutputBuilder :=
  { b with unlock_conditions := btreeReplace UnlockCondition.cmp u b.unlock_conditions }

/-- BasicOutputBuilder::add_feature (basic.rs lines 132-137). -/
def BasicOutputBuilder.add_feature (b : BasicOutputBuilder) (f : Feature) :
    BasicOutputBuilder :=
  { b with features := btreeInsert Feature.cmp f b.features }

/-- BasicOutputBuilder::replace_feature (basic.rs lines 146-150). -/
def BasicOutputBuilder.replace_feature (b : BasicOutputBuilder) (f : Feature) :
    BasicOutputBuilder :=
  { b with features := btreeReplace Feature.cmp f b.features }

/-- Rent cost of a basic output builder (Rent/RentCost for
BasicOutputBuilder, basic.rs lines 235-260). -/
def BasicOutputBuilder.rent_cost (b : BasicOutputBuilder) (rs : RentStructure) : Nat :=
  rentCostOf rs (basicFieldsWeight rs b.native_tokens b.unlock_conditions b.features)

/-- Rent cost of a basic output (Rent/RentCost for BasicOutput, basic.rs
lines 384-406). -/
def BasicOutput.rent_cost (o : BasicOutput) (rs : RentStructure) : Nat :=
  rentCostOf rs (basicFieldsWeight rs o.native_tokens o.unlock_conditions o.features)

/-- BasicOutputBuilder::finish (basic.rs lines 196-216). -/
def BasicOutputBuilder.finish (b : BasicOutputBuilder) : Except Error BasicOutput :=
  let amount := match b.amount with
    | OutputBuilderAmount.amount a => a
    | OutputBuilderAmount.minimumStorageDeposit rs => b.rent_cost rs
  match UnlockConditions.from_set b.unlock_conditions with
  | Except.error e => Except.error e
  | Except.ok unlock_conditions =>
    match verify_unlock_conditions_basic unlock_conditions with
    | Except.error e => Except.error e
    | Except.ok _ =>
      match Features.from_set b.features with
      | Except.error e => Except.error e
      | Except.ok features =>
        match verify_allowed_features features BasicOutput.ALLOWED_FEATURES with
        | Except.error e => Except.error e
        | Except.ok _ =>
          match NativeTokens.from_set b.native_tokens with
          | Except.error e => Except.error e
          | Except.ok native_tokens =>
            Except.ok { amount := amount, mana := b.mana,
                        native_tokens := native_tokens,
                        unlock_conditions := unlock_conditions,
                        features := features }

/-- BasicOutputBuilder::with_sufficient_storage_deposit (basic.rs lines
160-193).  `StorageDepositReturnUnlockCondition::new` is modelled from the
spec as total (the spec describes no failure at this site), so the fallible
signature of the source is kept but never errors. -/
def BasicOutputBuilder.with_sufficient_storage_deposit (b : BasicOutputBuilder)
    (return_address : Address) (rent_structure : RentStructure) (token_supply : Nat) :
    Except Error BasicOutputBuilder :=
  match b.amount with
  | OutputBuilderAmount.amount amount =>
    if amount < b.rent_cost rent_structure then
      let b1 := b.add_unlock_condition
        (UnlockCondition.storageDepositReturn return_address 0)
      let rent_cost := b1.rent_cost rent_structure
      Except.ok ((b1.with_amount rent_cost).replace_unlock_condition
        (UnlockCondition.storageDepositReturn return_address (rent_cost - amount)))
    else Except.ok b
  | OutputBuilderAmount.minimumStorageDeposit _ => Except.ok b

/-- From<&BasicOutput> for BasicOutputBuilder (basic.rs lines 262-272):
the collections are re-collected into builder sets. -/
def BasicOutputBuilder.from_output (o : BasicOutput) : BasicOutputBuilder :=
  { amount := OutputBuilderAmount.amount o.amount
    mana := o.mana
    native_tokens := btreeOfList NativeToken.cmp o.native_tokens
    unlock_conditions := btreeOfList UnlockCondition.cmp o.unlock_conditions
    features := btreeOfList Feature.cmp o.features }

/-- BasicOutput::simple_deposit_address (basic.rs lines 373-381). -/
def BasicOutput.simple_deposit_address (o : BasicOutput) : Option Address :=
  match o.unlock_conditions with
  | [UnlockCondition.address a] =>
    if o.native_tokens.isEmpty && o.features.isEmpty then some a else none
  | _ => none

/-- The foundry output builder (foundry.rs lines 38-46). -/
structure FoundryOutputBuilder where
  amount : OutputBuilderAmount
  native_tokens : List NativeToken
  serial_number : Nat
  token_scheme : TokenScheme
  unlock_conditions : List UnlockCondition
  features : List Feature
  immutable_features : List Feature
deriving DecidableEq, Repr

/-- FoundryOutputBuilder::new_with_amount (foundry.rs lines 50-52). -/
def FoundryOutputBuilder.new_with_amount (amount : Nat) (serial_number : Nat)
    (token_scheme : TokenScheme) : FoundryOutputBuilder :=
  { amount := OutputBuilderAmount.amount amount
    native_tokens := [], serial_number := serial_number
    token_scheme := token_scheme
    unlock_conditions := [], features := [], immutable_features := [] }

/-- FoundryOutputBuilder::new_with_minimum_storage_deposit (foundry.rs
lines 56-66). -/
def FoundryOutputBuilder.new_with_minimum_storage_deposit (rs : RentStructure)
    (serial_number : Nat) (token_scheme : TokenScheme) : FoundryOutputBuilder :=
  { amount := OutputBuilderAmount.minimumStorageDeposit rs
    native_tokens := [], serial_number := serial_number
    token_scheme := token_scheme
    unlock_conditions := [], features := [], immutable_features := [] }

/-- FoundryOutputBuilder::add_unlock_condition (foundry.rs lines 122-127). -/
def FoundryOutputBuilder.add_unlock_condition (b : FoundryOutputBuilder)
    (u : UnlockCondition) : FoundryOutputBuilder :=
  { b with unlock_conditions := btreeInsert UnlockCondition.cmp u b.unlock_conditions }

/-- FoundryOutputBuilder::replace_unlock_condition (foundry.rs lines
139-143). -/
def FoundryOutputBuilder.replace_unlock_condition (b : FoundryOutputBuilder)
    (u : UnlockCondition) : FoundryOutputBuilder :=
  { b with unlock_conditions := btreeReplace UnlockCondition.cmp u b.unlock_conditions }

/-- FoundryOutputBuilder::add_feature (foundry.rs lines 152-157). -/
def FoundryOutputBuilder.add_feature (b : FoundryOutputBuilder) (f : Feature) :
    FoundryOutputBuilder :=
  { b with features := btreeInsert Feature.cmp f b.features }

/-- FoundryOutputBuilder::replace_feature (foundry.rs lines 166-170). -/
def FoundryOutputBuilder.replace_feature (b : FoundryOutputBuilder) (f : Feature) :
    FoundryOutputBuilder :=
  { b with features := btreeReplace Feature.cmp f b.features }

/-- Rent cost of a foundry output builder (modelled from the spec for the
builder side; the field weights match the foundry packing layout). -/
def FoundryOutputBuilder.rent_cost (b : FoundryOutputBuilder) (rs : RentStructure) : Nat :=
  rentCostOf rs (foundryFieldsWeight rs b.native_tokens b.token_scheme
    b.unlock_conditions b.features b.immutable_features)

/-- Rent cost of a foundry output (Rent for FoundryOutput via
Output::Foundry, used by finish; the weight does not depend on the amount
value). -/
def FoundryOutput.rent_cost (f : FoundryOutput) (rs : RentStructure) : Nat :=
  rentCostOf rs (foundryFieldsWeight rs f.native_tokens f.token_scheme
    f.unlock_conditions f.features f.immutable_features)

/-- FoundryOutputBuilder::finish (foundry.rs lines 207-242): the serial
number is checked first, the output is built with a placeholder amount 1,
then the amount is resolved from the policy (the rent cost of the built
output for MinimumStorageDeposit). -/
def FoundryOutputBuilder.finish (b : FoundryOutputBuilder) : Except Error FoundryOutput :=
  if b.serial_number = 0 then Except.error Error.invalidFoundryZeroSerialNumber
  else
    match UnlockConditions.from_set b.unlock_conditions with
    | Except.error e => Except.error e
    | Except.ok unlock_conditions =>
      match verify_unlock_conditions_foundry unlock_conditions with
      | Except.error e => Except.error e
      | Except.ok _ =>
        match Features.from_set b.features with
        | Except.error e => Except.error e
        | Except.ok features =>
          match verify_allowed_features features FoundryOutput.ALLOWED_FEATURES with
          | Except.error e => Except.error e
          | Except.ok _ =>
            match Features.from_set b.immutable_features with
            | Except.error e => Except.error e
            | Except.ok immutable_features =>
              match verify_allowed_features immutable_features
                  FoundryOutput.ALLOWED_FEATURES with
              | Except.error e => Except.error e
              | Except.ok _ =>
                match NativeTokens.from_set b.native_tokens with
                | Except.error e => Except.error e
                | Except.ok native_tokens =>
                  let output : FoundryOutput :=
                    { amount := 1, native_tokens := native_tokens
                      serial_number := b.serial_number
                      token_scheme := b.token_scheme
                      unlock_conditions := unlock_conditions
                      features := features
                      immutable_features := immutable_features }
                  Except.ok { output with amount :=
                    match b.amount with
                    | OutputBuilderAmount.amount a => a
                    | OutputBuilderAmount.minimumStorageDeposit rs =>
                      output.rent_cost rs }

/-- From<&FoundryOutput> for FoundryOutputBuilder (foundry.rs lines
264-276). -/
def FoundryOutputBuilder.from_output (f : FoundryOutput) : FoundryOutputBuilder :=
  { amount := OutputBuilderAmount.amount f.amount
    native_tokens := btreeOfList NativeToken.cmp f.native_tokens
    serial_number := f.serial_number
    token_scheme := f.token_scheme
    unlock_conditions := btreeOfList UnlockCondition.cmp f.unlock_conditions
    features := btreeOfList Feature.cmp f.features
    immutable_features := btreeOfList Feature.cmp f.immutable_features }

/-- Structural validity of a basic output: exactly what finish enforces
(kind-sorted unique collections, an Address unlock condition, allowed
kinds) plus unique native-token ids. -/
def BasicOutput.valid (o : BasicOutput) : Bool :=
  strictSortedBy NativeToken.token_id o.native_tokens
    && strictSortedBy UnlockCondition.kind o.unlock_conditions
    && strictSortedBy Feature.kind o.features
    && (UnlockConditions.address_condition o.unlock_conditions).isSome
    && o.unlock_conditions.all (fun u => BasicOutput.ALLOWED_UNLOCK_CONDITIONS.contains u.kind)
    && o.features.all (fun f => BasicOutput.ALLOWED_FEATURES.contains f.kind)

/-- Structural validity of a foundry output: what finish enforces (nonzero
serial number, kind-sorted unique collections, an ImmutableAliasAddress
unlock condition, allowed kinds) plus unique native-token ids. -/
def FoundryOutput.valid (f : FoundryOutput) : Bool :=
  decide (f.serial_number ≠ 0)
    && strictSortedBy NativeToken.token_id f.native_tokens
    && strictSortedBy UnlockCondition.kind f.unlock_conditions
    && strictSortedBy Feature.kind f.features
    && strictSortedBy Feature.kind f.immutable_features
    && (UnlockConditions.immutable_alias_address f.unlock_conditions).isSome
    && f.unlock_conditions.all (fun u => FoundryOutput.ALLOWED_UNLOCK_CONDITIONS.contains u.kind)
    && f.features.all (fun x => FoundryOutput.ALLOWED_FEATURES.contains x.kind)
    && f.immutable_features.all (fun x => FoundryOutput.ALLOWED_FEATURES.contains x.kind)

/-- Modelled from the spec: little-endian fixed-width byte encoding of an
unsigned integer (u8/u16/u32/u64 and the 32-byte U256 all use this shape). -/
def packLE : Nat → Nat → List Nat
  | 0, _ => []
  | w + 1, n => n % 256 :: packLE w (n / 256)

/-- Modelled from the spec: reads a little-endian fixed-width integer,
returning the value and the unconsumed tail; truncated input is rejected. -/
def unpackLE : Nat → List Nat → Option (Nat × List Nat)
  | 0, bs => some (0, bs)
  | _ + 1, [] => none
  | w + 1, b :: bs =>
    match unpackLE w bs with
    | none => none
    | some (m, rest) => some (b + 256 * m, rest)

/-- Reads a fixed number of raw bytes, rejecting truncated input. -/
def readBytes : Nat → List Nat → Option (List Nat × List Nat)
  | 0, bs => some ([], bs)
  | _ + 1, [] => none
  | n + 1, b :: bs =>
    match readBytes n bs with
    | none => none
    | some (d, rest) => some (b :: d, rest)

/-- Modelled from the spec: an address packs as its kind byte followed by
the 32-byte body. -/
def Address.pack : Address → List Nat
  | .ed25519 h => 0 :: packLE 32 h
  | .aliasAddr a => 8 :: packLE 32 a
  | .nft n => 16 :: packLE 32 n

/-- Modelled from the spec: address unpacking dispatches on the kind byte
and rejects unknown kinds. -/
def Address.unpack : List Nat → Option (Address × List Nat)
  | 0 :: bs =>
    match unpackLE 32 bs with
    | none => none
    | some (h, rest) => some (Address.ed25519 h, rest)
  | 8 :: bs =>
    match unpackLE 32 bs with
    | none => none
    | some (a, rest) => some (Address.aliasAddr a, rest)
  | 16 :: bs =>
    match unpackLE 32 bs with
    | none => none
    | some (n, rest) => some (Address.nft n, rest)
  | _ => none

/-- Modelled from the spec: an unlock condition packs as its kind byte
followed by its payload (addresses in their packed form, a u64 amount for
StorageDepositReturn, u32 timestamps). -/
def UnlockCondition.pack : UnlockCondition → List Nat
  | .address a => 0 :: a.pack
  | .storageDepositReturn a amt => 1 :: (a.pack ++ packLE 8 amt)
  | .timelock t => 2 :: packLE 4 t
  | .expiration a t => 3 :: (a.pack ++ packLE 4 t)
  | .immutableAliasAddress i => 6 :: (Address.aliasAddr i).pack

/-- Modelled from the spec: unlock-condition unpacking dispatches on the
kind byte; the StorageDepositReturn amount is range-checked against the
token supply of the protocol parameters when verifying. -/
def UnlockCondition.unpack (params : ProtocolParameters) :
    List Nat → Option (UnlockCondition × List Nat)
  | 0 :: bs =>
    match Address.unpack bs with
    | none => none
    | some (a, rest) => some (UnlockCondition.address a, rest)
  | 1 :: bs =>
    match Address.unpack bs with
    | none => none
    | some (a, rest) =>
      match unpackLE 8 rest with
      | none => none
      | some (amt, rest2) =>
        if amt ≤ params.token_supply then
          some (UnlockCondition.storageDepositReturn a amt, rest2)
        else none
  | 2 :: bs =>
    match unpackLE 4 bs with
    | none => none
    | some (t, rest) => some (UnlockCondition.timelock t, rest)
  | 3 :: bs =>
    match Address.unpack bs with
    | none => none
    | some (a, rest) =>
      match unpackLE 4 rest with
      | none => none
      | some (t, rest2) => some (UnlockCondition.expiration a t, rest2)
  | 6 :: bs =>
    match Address.unpack bs with
    | some (Address.aliasAddr i, rest) => some (UnlockCondition.immutableAliasAddress i, rest)
    | _ => none
  | _ => none

/-- Modelled from the spec: a feature packs as its kind byte followed by
its payload (metadata carries a u16 length prefix, tag a u8 length
prefix, both followed by the raw bytes). -/
def Feature.pack : Feature → List Nat
  | .sender a => 0 :: a.pack
  | .issuer a => 1 :: a.pack
  | .metadata d => 2 :: (packLE 2 d.length ++ d)
  | .tag d => 3 :: (packLE 1 d.length ++ d)

/-- Modelled from the spec: feature unpacking dispatches on the kind
byte. -/
def Feature.unpack : List Nat → Option (Feature × List Nat)
  | 0 :: bs =>
    match Address.unpack bs with
    | none => none
    | some (a, rest) => some (Feature.sender a, rest)
  | 1 :: bs =>
    match Address.unpack bs with
    | none => none
    | some (a, rest) => some (Feature.issuer a, rest)
  | 2 :: bs =>
    match unpackLE 2 bs with
    | none => none
    | some (len, rest) =>
      match readBytes len rest with
      | none => none
      | some (d, rest2) => some (Feature.metadata d, rest2)
  | 3 :: bs =>
    match unpackLE 1 bs with
    | none => none
    | some (len, rest) =>
      match readBytes len rest with
      | none => none
      | some (d, rest2) => some (Feature.tag d, rest2)
  | _ => none

/-- Modelled from the spec: a native token packs as the 38-byte token id
followed by the 32-byte U256 amount. -/
def NativeToken.pack (t : NativeToken) : List Nat :=
  packLE 38 t.token_id ++ packLE 32 t.amount

/-- Modelled from the spec: native-token unpacking re-checks the nonzero
amount when verifying. -/
def NativeToken.unpack (bs : List Nat) : Option (NativeToken × List Nat) :=
  match unpackLE 38 bs with
  | none => none
  | some (tid, rest) =>
    match unpackLE 32 rest with
    | none => none
    | some (amt, rest2) =>
      if amt ≠ 0 then some (⟨tid, amt⟩, rest2) else none

/-- Modelled from the spec: a token scheme packs as its kind byte (0 for
Simple) followed by the three U256 counters. -/
def TokenScheme.pack : TokenScheme → List Nat
  | .simple s =>
    0 :: (packLE 32 s.minted_tokens ++ packLE 32 s.melted_tokens
      ++ packLE 32 s.maximum_supply)

/-- Modelled from the spec: token-scheme unpacking re-checks the syntactic
rule `melted_tokens <= minted_tokens <= maximum_supply` and a nonzero
maximum supply when verifying. -/
def TokenScheme.unpack : List Nat → Option (TokenScheme × List Nat)
  | 0 :: bs =>
    match unpackLE 32 bs with
    | none => none
    | some (minted, r1) =>
      match unpackLE 32 r1 with
      | none => none
      | some (melted, r2) =>
        match unpackLE 32 r2 with
        | none => none
        | some (maxs, r3) =>
          if melted ≤ minted ∧ minted ≤ maxs ∧ 0 < maxs then
            some (TokenScheme.simple ⟨minted, melted, maxs⟩, r3)
          else none
  | _ => none

/-- Modelled from the spec: decodes exactly `n` consecutive elements,
threading the unconsumed tail. -/
def unpackMany {α : Type} (u : List Nat → Option (α × List Nat)) :
    Nat → List Nat → Option (List α × List Nat)
  | 0, bs => some ([], bs)
  | n + 1, bs =>
    match u bs with
    | none => none
    | some (x, rest) =>
      match unpackMany u n rest with
      | none => none
      | some (xs, rest2) => some (x :: xs, rest2)

/-- Modelled from the spec: a collection packs as a u8 count prefix
followed by the packed elements back to back. -/
def packPrefixedU8 {α : Type} (p : α → List Nat) (l : List α) : List Nat :=
  packLE 1 l.length ++ (l.map p).join

/-- Modelled from the spec: native-token collections re-check unique
sorted token ids when verifying. -/
def NativeTokens.unpack (bs : List Nat) : Option (List NativeToken × List Nat) :=
  match unpackLE 1 bs with
  | none => none
  | some (count, rest) =>
    match unpackMany NativeToken.unpack count rest with
    | none => none
    | some (l, rest2) =>
      if strictSortedBy NativeToken.token_id l then some (l, rest2) else none

/-- Modelled from the spec: unlock-condition collections re-check unique
sorted kinds when verifying. -/
def UnlockConditions.unpack (params : ProtocolParameters) (bs : List Nat) :
    Option (List UnlockCondition × List Nat) :=
  match unpackLE 1 bs with
  | none => none
  | some (count, rest) =>
    match unpackMany (UnlockCondition.unpack params) count rest with
    | none => none
    | some (l, rest2) =>
      if strictSortedBy UnlockCondition.kind l then some (l, rest2) else none

/-- Modelled from the spec: feature collections re-check unique sorted
kinds when verifying. -/
def Features.unpack (bs : List Nat) : Option (List Feature × List Nat) :=
  match unpackLE 1 bs with
  | none => none
  | some (count, rest) =>
    match unpackMany Feature.unpack count rest with
    | none => none
    | some (l, rest2) =>
      if strictSortedBy Feature.kind l then some (l, rest2) else none

/-- Packable::pack for FoundryOutput (foundry.rs lines 550-560): amount,
native tokens, serial number, token scheme, unlock conditions, features,
immutable features, in declared order. -/
def FoundryOutput.pack (f : FoundryOutput) : List Nat :=
  packLE 8 f.amount
    ++ packPrefixedU8 NativeToken.pack f.native_tokens
    ++ packLE 4 f.serial_number
    ++ f.token_scheme.pack
    ++ packPrefixedU8 UnlockCondition.pack f.unlock_conditions
    ++ packPrefixedU8 Feature.pack f.features
    ++ packPrefixedU8 Feature.pack f.immutable_features

/-- Packable::unpack for FoundryOutput with VERIFY = true (foundry.rs
lines 562-602): each field is read in order and the output-amount range,
unlock-condition and feature verifications are re-run. -/
def FoundryOutput.unpack (visitor : ProtocolParameters) (bs : List Nat) :
    Option (FoundryOutput × List Nat) :=
  match unpackLE 8 bs with
  | none => none
  | some (amount, r1) =>
    if amount ≤ visitor.token_supply then
      match NativeTokens.unpack r1 with
      | none => none
      | some (native_tokens, r2) =>
        match unpackLE 4 r2 with
        | none => none
        | some (serial_number, r3) =>
          match TokenScheme.unpack r3 with
          | none => none
          | some (token_scheme, r4) =>
            match UnlockConditions.unpack visitor r4 with
            | none => none
            | some (unlock_conditions, r5) =>
              if (UnlockConditions.immutable_alias_address unlock_conditions).isSome
                  ∧ unlock_conditions.all
                    (fun u => FoundryOutput.ALLOWED_UNLOCK_CONDITIONS.contains u.kind) then
                match Features.unpack r5 with
                | none => none
                | some (features, r6) =>
                  if features.all
                      (fun x => FoundryOutput.ALLOWED_FEATURES.contains x.kind) then
                    match Features.unpack r6 with
                    | none => none
                    | some (immutable_features, r7) =>
                      if immutable_features.all
                          (fun x => FoundryOutput.ALLOWED_FEATURES.contains x.kind) then
                        some ({ amount := amount, native_tokens := native_tokens,
                                serial_number := serial_number,
                                token_scheme := token_scheme,
                                unlock_conditions := unlock_conditions,
                                features := features,
                                immutable_features := immutable_features }, r7)
                      else none
                  else none
              else none
    else none

/-- Packable::pack for BasicOutput (derived, basic.rs lines 275-289):
amount, mana, native tokens, unlock conditions, features, in declared
order. -/
def BasicOutput.pack (o : BasicOutput) : List Nat :=
  packLE 8 o.amount ++ packLE 8 o.mana
    ++ packPrefixedU8 NativeToken.pack o.native_tokens
    ++ packPrefixedU8 UnlockCondition.pack o.unlock_conditions
    ++ packPrefixedU8 Feature.pack o.features

/-- Packable::unpack for BasicOutput with VERIFY = true (derived with the
verify_with hooks of basic.rs lines 275-289, 408-437). -/
def BasicOutput.unpack (visitor : ProtocolParameters) (bs : List Nat) :
    Option (BasicOutput × List Nat) :=
  match unpackLE 8 bs with
  | none => none
  | some (amount, r1) =>
    if amount ≤ visitor.token_supply then
      match unpackLE 8 r1 with
      | none => none
      | some (mana, r2) =>
        match NativeTokens.unpack r2 with
        | none => none
        | some (native_tokens, r3) =>
          match UnlockConditions.unpack visitor r3 with
          | none => none
          | some (unlock_conditions, r4) =>
            if (UnlockConditions.address_condition unlock_conditions).isSome
                ∧ unlock_conditions.all
                  (fun u => BasicOutput.ALLOWED_UNLOCK_CONDITIONS.contains u.kind) then
              match Features.unpack r4 with
              | none => none
              | some (features, r5) =>
                if features.all
                    (fun x => BasicOutput.ALLOWED_FEATURES.contains x.kind) then
                  some ({ amount := amount, mana := mana,
                          native_tokens := native_tokens,
                          unlock_conditions := unlock_conditions,
                          features := features }, r5)
                else none
            else none
    else none

/-- Byte-range validity of an address: its body fits the 32-byte field. -/
def Address.encodable : Address → Bool
  | .ed25519 h => decide (h < 256 ^ 32)
  | .aliasAddr a => decide (a < 256 ^ 32)
  | .nft n => decide (n < 256 ^ 32)

/-- Byte-range validity of an unlock condition under a token supply. -/
def UnlockCondition.encodable (ts : Nat) : UnlockCondition → Bool
  | .address a => a.encodable
  | .storageDepositReturn a amt =>
    a.encodable && decide (amt < 256 ^ 8) && decide (amt ≤ ts)
  | .timelock t => decide (t < 256 ^ 4)
  | .expiration a t => a.encodable && decide (t < 256 ^ 4)
  | .immutableAliasAddress i => decide (i < 256 ^ 32)

/-- Byte-range validity of a feature: payload lengths fit their length
prefixes. -/
def Feature.encodable : Feature → Bool
  | .sender a => a.encodable
  | .issuer a => a.encodable
  | .metadata d => decide (d.length < 256 ^ 2)
  | .tag d => decide (d.length < 256)

/-- Byte-range validity of a native token: nonzero amount, fields fit
their fixed widths. -/
def NativeToken.encodable (t : NativeToken) : Bool :=
  decide (t.token_id < 256 ^ 38) && decide (t.amount < 256 ^ 32)
    && decide (t.amount ≠ 0)

/-- Byte-range and syntactic validity of a simple token scheme. -/
def SimpleTokenScheme.encodable (s : SimpleTokenScheme) : Bool :=
  decide (s.minted_tokens < 256 ^ 32) && decide (s.melted_tokens < 256 ^ 32)
    && decide (s.maximum_supply < 256 ^ 32)
    && decide (s.melted_tokens ≤ s.minted_tokens)
    && decide (s.minted_tokens ≤ s.maximum_supply)
    && decide (0 < s.maximum_supply)

/-- Validity of a basic output under protocol parameters: the structural
checks of finish together with the byte ranges its packed form needs. -/
def BasicOutput.packValid (params : ProtocolParameters) (o : BasicOutput) : Bool :=
  decide (o.amount < 256 ^ 8) && decide (o.amount ≤ params.token_supply)
    && decide (o.mana < 256 ^ 8)
    && decide (o.native_tokens.length < 256)
    && o.native_tokens.all NativeToken.encodable
    && strictSortedBy NativeToken.token_id o.native_tokens
    && decide (o.unlock_conditions.length < 256)
    && o.unlock_conditions.all (UnlockCondition.encodable params.token_supply)
    && strictSortedBy UnlockCondition.kind o.unlock_conditions
    && (UnlockConditions.address_condition o.unlock_conditions).isSome
    && o.unlock_conditions.all
      (fun u => BasicOutput.ALLOWED_UNLOCK_CONDITIONS.contains u.kind)
    && decide (o.features.length < 256)
    && o.features.all Feature.encodable
    && strictSortedBy Feature.kind o.features
    && o.features.all (fun x => BasicOutput.ALLOWED_FEATURES.contains x.kind)

/-- Validity of a foundry output under protocol parameters: the structural
checks of finish together with the byte ranges its packed form needs. -/
def FoundryOutput.packValid (params : ProtocolParameters) (f : FoundryOutput) : Bool :=
  decide (f.amount < 256 ^ 8) && decide (f.amount ≤ params.token_supply)
    && decide (f.native_tokens.length < 256)
    && f.native_tokens.all NativeToken.encodable
    && strictSortedBy NativeToken.token_id f.native_tokens
    && decide (f.serial_number < 256 ^ 4)
    && f.token_scheme.simpleScheme.encodable
    && decide (f.unlock_conditions.length < 256)
    && f.unlock_conditions.all (UnlockCondition.encodable params.token_supply)
    && strictSortedBy UnlockCondition.kind f.unlock_conditions
    && (UnlockConditions.immutable_alias_address f.unlock_conditions).isSome
    && f.unlock_conditions.all
      (fun u => FoundryOutput.ALLOWED_UNLOCK_CONDITIONS.contains u.kind)
    && decide (f.features.length < 256)
    && f.features.all Feature.encodable
    && strictSortedBy Feature.kind f.features
    && f.features.all (fun x => FoundryOutput.ALLOWED_FEATURES.contains x.kind)
    && decide (f.immutable_features.length < 256)
    && f.immutable_features.all Feature.encodable
    && strictSortedBy Feature.kind f.immutable_features
    && f.immutable_features.all (fun x => FoundryOutput.ALLOWED_FEATURES.contains x.kind)

/-- Concrete rent structure used by the witnesses. -/
def sampleRent : RentStructure := ⟨1, 1, 1⟩

/-- Concrete address used by the witnesses. -/
def sampleAddress : Address := Address.ed25519 1

/-- Concrete basic output used by the witnesses. -/
def sampleBasic : BasicOutput :=
  { amount := 5, mana := 0, native_tokens := []
    unlock_conditions := [UnlockCondition.address sampleAddress], features := [] }

/-- Concrete foundry used by the witnesses: serial number 1, one
ImmutableAliasAddress unlock condition for alias 7, maximum supply 1000. -/
def sampleFoundry (minted melted : Nat) : FoundryOutput :=
  { amount := 1000
    native_tokens := []
    serial_number := 1
    token_scheme := TokenScheme.simple ⟨minted, melted, 1000⟩
    unlock_conditions := [UnlockCondition.immutableAliasAddress 7]
    features := []
    immutable_features := [] }

/-- C2: with immutable fields equal, counters non-decreasing and the input
balance for the token id strictly below the output balance,
`transition_inner` returns Ok exactly when the minted difference equals the
token balance difference and the melted counter is unchanged, and returns
`InconsistentNativeTokensMint` otherwise. -/
theorem foundry_mint_transition (c n : FoundryOutput) (im om : NativeTokenMap)
    (h1 : c.alias_address = n.alias_address)
    (h2 : c.serial_number = n.serial_number)
    (h3 : c.immutable_features = n.immutable_features)
    (h4 : c.scheme.maximum_supply = n.scheme.maximum_supply)
    (h5 : c.scheme.minted_tokens ≤ n.scheme.minted_tokens)
    (h6 : c.scheme.melted_tokens ≤ n.scheme.melted_tokens)
    (h7 : mapGetOrZero im n.token_id < mapGetOrZero om n.token_id) :
    FoundryOutput.transition_inner c n im om =
      if n.scheme.minted_tokens - c.scheme.minted_tokens
          = mapGetOrZero om n.token_id - mapGetOrZero im n.token_id
        ∧ c.scheme.melted_tokens = n.scheme.melted_tokens
      then Except.ok ()
      else Except.error StateTransitionError.inconsistentNativeTokensMint := by
  have g1 : ¬(c.alias_address ≠ n.alias_address ∨ c.serial_number ≠ n.serial_number
      ∨ c.immutable_features ≠ n.immutable_features) := by
    simp [h1, h2, h3]
  have g2 : ¬(c.scheme.maximum_supply ≠ n.scheme.maximum_supply) := by simp [h4]
  have g3 : ¬(c.scheme.minted_tokens > n.scheme.minted_tokens
      ∨ c.scheme.melted_tokens > n.scheme.melted_tokens) := by omega
  unfold FoundryOutput.transition_inner
  rw [if_neg g1, if_neg g2, if_neg g3, if_pos h7]
  by_cases hA : n.scheme.minted_tokens - c.scheme.minted_tokens
      = mapGetOrZero om n.token_id - mapGetOrZero im n.token_id
  · by_cases hB : c.scheme.melted_tokens = n.scheme.melted_tokens
    · rw [if_neg (fun hc => hc hA), if_neg (fun hc => hc hB), if_pos ⟨hA, hB⟩]
    · rw [if_neg (fun hc => hc hA), if_pos hB, if_neg (fun hc => hB hc.2)]
  · rw [if_pos hA, if_neg (fun hc => hA hc.1)]

/-- C2 witness: the mint scenario of the spec.  Current counters
{minted:100, melted:0}, input balance 0, output balance 50; next minted 150
succeeds, next minted 140 fails with `InconsistentNativeTokensMint`. -/
theorem foundry_mint_transition_witness :
    FoundryOutput.transition_inner (sampleFoundry 100 0) (sampleFoundry 150 0) []
        [((sampleFoundry 150 0).token_id, 50)] = Except.ok ()
    ∧ FoundryOutput.transition_inner (sampleFoundry 100 0) (sampleFoundry 140 0) []
        [((sampleFoundry 140 0).token_id, 50)]
      = Except.error StateTransitionError.inconsistentNativeTokensMint := by
  constructor
  · have h := foundry_mint_transition (sampleFoundry 100 0) (sampleFoundry 150 0) []
      [((sampleFoundry 150 0).token_id, 50)] (by rfl) (by rfl) (by rfl) (by rfl)
      (by decide) (by decide) (by decide)
    rw [h]
    rfl
  · have h := foundry_mint_transition (sampleFoundry 100 0) (sampleFoundry 140 0) []
      [((sampleFoundry 140 0).token_id, 50)] (by rfl) (by rfl) (by rfl) (by rfl)
      (by decide) (by decide) (by decide)
    rw [h]
    rfl

/-- C1 counterexample: under the hypotheses of the claim (immutable fields
equal, counters non-decreasing, input balance strictly above the output
balance) the source accepts a transition whose melted counter is unchanged:
burning 5 tokens with no foundry accounting returns Ok, where the claim
demands `InconsistentNativeTokensMeltBurn`. -/
theorem foundry_melt_burn_counterexample :
    mapGetOrZero [] (sampleFoundry 100 0).token_id
        < mapGetOrZero [((sampleFoundry 100 0).token_id, 5)] (sampleFoundry 100 0).token_id
    ∧ (sampleFoundry 100 0).scheme.melted_tokens = (sampleFoundry 100 0).scheme.melted_tokens
    ∧ FoundryOutput.transition_inner (sampleFoundry 100 0) (sampleFoundry 100 0)
        [((sampleFoundry 100 0).token_id, 5)] [] = Except.ok () :=
  ⟨by decide, rfl, by rfl⟩

/-- C1 (amended): with immutable fields equal, counters non-decreasing and
the input balance for the token id strictly above the output balance,
`transition_inner` returns Ok exactly when at most one of the minted/melted
counters changed and the melted difference is at most the burned amount
(input balance minus output balance); otherwise it returns
`InconsistentNativeTokensMeltBurn`. -/
theorem foundry_melt_burn_transition (c n : FoundryOutput) (im om : NativeTokenMap)
    (h1 : c.alias_address = n.alias_address)
    (h2 : c.serial_number = n.serial_number)
    (h3 : c.immutable_features = n.immutable_features)
    (h4 : c.scheme.maximum_supply = n.scheme.maximum_supply)
    (h5 : c.scheme.minted_tokens ≤ n.scheme.minted_tokens)
    (h6 : c.scheme.melted_tokens ≤ n.scheme.melted_tokens)
    (h7 : mapGetOrZero om n.token_id < mapGetOrZero im n.token_id) :
    FoundryOutput.transition_inner c n im om =
      if (c.scheme.melted_tokens = n.scheme.melted_tokens
          ∨ c.scheme.minted_tokens = n.scheme.minted_tokens)
        ∧ n.scheme.melted_tokens - c.scheme.melted_tokens
            ≤ mapGetOrZero im n.token_id - mapGetOrZero om n.token_id
      then Except.ok ()
      else Except.error StateTransitionError.inconsistentNativeTokensMeltBurn := by
  have g1 : ¬(c.alias_address ≠ n.alias_address ∨ c.serial_number ≠ n.serial_number
      ∨ c.immutable_features ≠ n.immutable_features) := by
    simp [h1, h2, h3]
  have g2 : ¬(c.scheme.maximum_supply ≠ n.scheme.maximum_supply) := by simp [h4]
  have g3 : ¬(c.scheme.minted_tokens > n.scheme.minted_tokens
      ∨ c.scheme.melted_tokens > n.scheme.melted_tokens) := by omega
  have g4 : ¬(mapGetOrZero im n.token_id < mapGetOrZero om n.token_id) := by omega
  have g5 : ¬(mapGetOrZero im n.token_id = mapGetOrZero om n.token_id) := by omega
  unfold FoundryOutput.transition_inner
  rw [if_neg g1, if_neg g2, if_neg g3, if_neg g4, if_neg g5]
  by_cases hA : c.scheme.melted_tokens ≠ n.scheme.melted_tokens
      ∧ c.scheme.minted_tokens ≠ n.scheme.minted_tokens
  · rw [if_pos hA, if_neg (fun hc => hc.1.elim (fun h => hA.1 h) (fun h => hA.2 h))]
  · have hor : c.scheme.melted_tokens = n.scheme.melted_tokens
        ∨ c.scheme.minted_tokens = n.scheme.minted_tokens := by tauto
    by_cases hB : n.scheme.melted_tokens - c.scheme.melted_tokens
        > mapGetOrZero im n.token_id - mapGetOrZero om n.token_id
    · rw [if_neg hA, if_pos hB, if_neg (fun hc => absurd hc.2 (not_le.mpr hB))]
    · rw [if_neg hA, if_neg hB, if_pos ⟨hor, not_lt.mp hB⟩]

/-- C1 witness (amended claim): melting 20 tokens while burning 30
(melted 0 → 20, input balance 30, output balance 0) succeeds. -/
theorem foundry_melt_burn_transition_witness :
    FoundryOutput.transition_inner (sampleFoundry 100 0) (sampleFoundry 100 20)
        [((sampleFoundry 100 20).token_id, 30)] [] = Except.ok () := by
  have h := foundry_melt_burn_transition (sampleFoundry 100 0) (sampleFoundry 100 20)
    [((sampleFoundry 100 20).token_id, 30)] [] (by rfl) (by rfl) (by rfl) (by rfl)
    (by decide) (by decide) (by decide)
  rw [h]
  rfl

/-- C3: foundry creation returns `MissingAliasForFoundry` unless the
controlling alias chain id maps to an Alias output on both the input and
the output side, `InconsistentFoundrySerialNumber` unless the serial number
lies in `(input_counter, output_counter]`, and
`InconsistentNativeTokensFoundryCreation` unless no input native tokens of
the token id exist, the output balance equals `minted_tokens` and
`melted_tokens` is zero; otherwise it returns Ok. -/
theorem foundry_creation_checks (n : FoundryOutput) (ctx : ValidationContext) (a : Nat)
    (ha : n.alias_address = some a) :
    FoundryOutput.creation n ctx =
      match ctx.input_chains.lookup a, ctx.output_chains.lookup a with
      | some (Output.aliasOutput input_alias), some (Output.aliasOutput output_alias) =>
        if input_alias.foundry_counter < n.serial_number
            ∧ n.serial_number ≤ output_alias.foundry_counter then
          if ¬ mapContainsKey ctx.input_native_tokens n.token_id
              ∧ mapGetOrZero ctx.output_native_tokens n.token_id = n.scheme.minted_tokens
              ∧ n.scheme.melted_tokens = 0 then
            Except.ok ()
          else Except.error StateTransitionError.inconsistentNativeTokensFoundryCreation
        else Except.error StateTransitionError.inconsistentFoundrySerialNumber
      | _, _ => Except.error StateTransitionError.missingAliasForFoundry := by
  have haD : n.alias_addressD = a := by simp [FoundryOutput.alias_addressD, ha]
  unfold FoundryOutput.creation
  rw [haD]
  rcases ctx.input_chains.lookup a with _ | (ia | b | f) <;>
    rcases ctx.output_chains.lookup a with _ | (oa | b2 | f2) <;> try rfl
  dsimp only
  split_ifs <;> first | rfl | omega | tauto

/-- C3 witness: alias 7 with input foundry counter 0 and output foundry
counter 5 creates a foundry with serial number 1 minting 100 tokens. -/
theorem foundry_creation_checks_witness :
    FoundryOutput.creation (sampleFoundry 100 0)
      { input_chains := [(7, Output.aliasOutput ⟨0⟩)]
        output_chains := [(7, Output.aliasOutput ⟨5⟩)]
        input_native_tokens := []
        output_native_tokens := [((sampleFoundry 100 0).token_id, 100)] } = Except.ok () := by
  have h := foundry_creation_checks (sampleFoundry 100 0)
    { input_chains := [(7, Output.aliasOutput ⟨0⟩)]
      output_chains := [(7, Output.aliasOutput ⟨5⟩)]
      input_native_tokens := []
      output_native_tokens := [((sampleFoundry 100 0).token_id, 100)] } 7 (by rfl)
  rw [h]
  rfl

/-- C4: foundry destruction returns Ok exactly when no output native tokens
of the token id remain and the outstanding supply `minted - melted` equals
the input-side balance; otherwise it returns
`InconsistentNativeTokensFoundryDestruction`.  The hypothesis is the
syntactic rule `melted_tokens <= minted_tokens` quoted by the source. -/
theorem foundry_destruction_checks (c : FoundryOutput) (ctx : ValidationContext)
    (hmm : c.scheme.melted_tokens ≤ c.scheme.minted_tokens) :
    FoundryOutput.destruction c ctx =
      if ¬ mapContainsKey ctx.output_native_tokens c.token_id
          ∧ c.scheme.minted_tokens - c.scheme.melted_tokens
            = mapGetOrZero ctx.input_native_tokens c.token_id
      then Except.ok ()
      else Except.error StateTransitionError.inconsistentNativeTokensFoundryDestruction := by
  unfold FoundryOutput.destruction
  split_ifs <;> first | rfl | omega | tauto

/-- C4 witness: the destruction scenario of the spec.  With counters
{minted:100, melted:40} and input balance 60 the destruction succeeds, and
any output-side entry for the token id makes it fail. -/
theorem foundry_destruction_checks_witness :
    FoundryOutput.destruction (sampleFoundry 100 40)
      { input_chains := [], output_chains := []
        input_native_tokens := [((sampleFoundry 100 40).token_id, 60)]
        output_native_tokens := [] } = Except.ok ()
    ∧ FoundryOutput.destruction (sampleFoundry 100 40)
      { input_chains := [], output_chains := []
        input_native_tokens := [((sampleFoundry 100 40).token_id, 60)]
        output_native_tokens := [((sampleFoundry 100 40).token_id, 1)] }
      = Except.error StateTransitionError.inconsistentNativeTokensFoundryDestruction := by
  constructor
  · rw [foundry_destruction_checks _ _ (by decide)]
    rfl
  · rw [foundry_destruction_checks _ _ (by decide)]
    rfl

/-- Strict sortedness of a cons unfolds to the head bound and the tail. -/
theorem strictSortedBy_cons_iff {α : Type} (f : α → Nat) (x y : α) (l : List α) :
    strictSortedBy f (x :: y :: l) = true
      ↔ f x < f y ∧ strictSortedBy f (y :: l) = true := by
  simp [strictSortedBy]

/-- A strictly key-sorted list is pairwise increasing in the key. -/
theorem strictSortedBy_pairwise {α : Type} (f : α → Nat) :
    ∀ l : List α, strictSortedBy f l = true → l.Pairwise (fun a b => f a < f b)
  | [], _ => List.Pairwise.nil
  | [_], _ => by simp
  | x :: y :: l, h => by
    rw [strictSortedBy_cons_iff] at h
    have hp := strictSortedBy_pairwise f (y :: l) h.2
    refine List.pairwise_cons.mpr ⟨?_, hp⟩
    intro z hz
    rcases List.mem_cons.mp hz with rfl | hz2
    · exact h.1
    · exact lt_trans h.1 ((List.pairwise_cons.mp hp).1 z hz2)

/-- Inserting an element that compares greater than everything present
appends it at the end. -/
theorem btreeInsert_of_all_gt {α : Type} (cmp : α → α → Ordering) (x : α) :
    ∀ l : List α, (∀ y ∈ l, cmp x y = Ordering.gt) → btreeInsert cmp x l = l ++ [x]
  | [], _ => rfl
  | y :: ys, h => by
    have hy := h y (List.mem_cons_self y ys)
    have ih := btreeInsert_of_all_gt cmp x ys (fun z hz => h z (List.mem_cons_of_mem y hz))
    simp [btreeInsert, hy, ih]

/-- Folding inserts of an increasing list onto an accumulator below it
appends the list. -/
theorem btreeFoldl_of_sorted {α : Type} (cmp : α → α → Ordering) :
    ∀ (l acc : List α), (∀ x ∈ l, ∀ y ∈ acc, cmp x y = Ordering.gt) →
      l.Pairwise (fun a b => cmp b a = Ordering.gt) →
      l.foldl (fun s x => btreeInsert cmp x s) acc = acc ++ l
  | [], acc, _, _ => by simp
  | x :: xs, acc, hacc, hp => by
    have hp2 := List.pairwise_cons.mp hp
    have hstep : btreeInsert cmp x acc = acc ++ [x] :=
      btreeInsert_of_all_gt cmp x acc (hacc x (List.mem_cons_self x xs))
    have hacc2 : ∀ z ∈ xs, ∀ y ∈ acc ++ [x], cmp z y = Ordering.gt := by
      intro z hz y hy
      rcases List.mem_append.mp hy with hy1 | hy2
      · exact hacc z (List.mem_cons_of_mem x hz) y hy1
      · rw [List.mem_singleton.mp hy2]
        exact hp2.1 z hz
    have ih := btreeFoldl_of_sorted cmp xs (acc ++ [x]) hacc2 hp2.2
    simp only [List.foldl_cons, hstep, ih, List.append_assoc, List.singleton_append]

/-- Re-collecting a list that is pairwise increasing under the comparator
reproduces it. -/
theorem btreeOfList_eq_self {α : Type} (cmp : α → α → Ordering) (l : List α)
    (hp : l.Pairwise (fun a b => cmp b a = Ordering.gt)) :
    btreeOfList cmp l = l := by
  have h := btreeFoldl_of_sorted cmp l [] (by intro x _ y hy; simp at hy) hp
  simpa [btreeOfList] using h

/-- Re-collecting a strictly kind-sorted unlock-condition list reproduces
it. -/
theorem btreeOfList_unlock_conditions (l : List UnlockCondition)
    (h : strictSortedBy UnlockCondition.kind l = true) :
    btreeOfList UnlockCondition.cmp l = l :=
  btreeOfList_eq_self _ _ ((strictSortedBy_pairwise _ l h).imp
    (fun hab => by simp [UnlockCondition.cmp, Nat.compare_eq_gt.mpr hab]))

/-- Re-collecting a strictly kind-sorted feature list reproduces it. -/
theorem btreeOfList_features (l : List Feature)
    (h : strictSortedBy Feature.kind l = true) :
    btreeOfList Feature.cmp l = l :=
  btreeOfList_eq_self _ _ ((strictSortedBy_pairwise _ l h).imp
    (fun hab => by simp [Feature.cmp, Nat.compare_eq_gt.mpr hab]))

/-- Re-collecting a native-token list strictly sorted by token id
reproduces it. -/
theorem btreeOfList_native_tokens (l : List NativeToken)
    (h : strictSortedBy NativeToken.token_id l = true) :
    btreeOfList NativeToken.cmp l = l :=
  btreeOfList_eq_self _ _ ((strictSortedBy_pairwise _ l h).imp
    (fun hab => by simp [NativeToken.cmp, Nat.compare_eq_gt.mpr hab]))

/-- The element placed by `btreeReplace` is the one `findByKind` returns
for its kind. -/
theorem find_btreeReplace {α : Type} (kindOf : α → Nat) (cmp : α → α → Ordering)
    (hcmp : ∀ a b, cmp a b = compare (kindOf a) (kindOf b)) (x : α) :
    ∀ l : List α, findByKind kindOf (kindOf x) (btreeReplace cmp x l) = some x
  | [] => by simp [btreeReplace, findByKind]
  | y :: ys => by
    have ih := find_btreeReplace kindOf cmp hcmp x ys
    rcases hcomp : compare (kindOf x) (kindOf y) with _ | _ | _
    · simp [btreeReplace, hcmp, hcomp, findByKind]
    · simp [btreeReplace, hcmp, hcomp, findByKind]
    · have hlt := Nat.compare_eq_gt.mp hcomp
      have hne : (kindOf y == kindOf x) = false := by
        simp [Nat.ne_of_lt hlt]
      simp [btreeReplace, hcmp, hcomp, findByKind, hne] at ih ⊢
      exact ih

/-- The element placed by `btreeInsert` into a list holding none of its
kind is the one `findByKind` returns for its kind. -/
theorem find_btreeInsert_fresh {α : Type} (kindOf : α → Nat) (cmp : α → α → Ordering)
    (hcmp : ∀ a b, cmp a b = compare (kindOf a) (kindOf b)) (x : α) :
    ∀ l : List α, (∀ y ∈ l, kindOf y ≠ kindOf x) →
      findByKind kindOf (kindOf x) (btreeInsert cmp x l) = some x
  | [], _ => by simp [btreeInsert, findByKind]
  | y :: ys, h => by
    have hyne := h y (List.mem_cons_self y ys)
    have ih := find_btreeInsert_fresh kindOf cmp hcmp x ys
      (fun z hz => h z (List.mem_cons_of_mem y hz))
    rcases hcomp : compare (kindOf x) (kindOf y) with _ | _ | _
    · simp [btreeInsert, hcmp, hcomp, findByKind]
    · exact absurd (Nat.compare_eq_eq.mp hcomp).symm hyne
    · have hne : (kindOf y == kindOf x) = false := by
        simp [hyne]
      simp [btreeInsert, hcmp, hcomp, findByKind, hne] at ih ⊢
      exact ih

/-- Inserting a second element of an already-inserted kind is a no-op when
the underlying list held none of that kind. -/
theorem btreeInsert_absorb {α : Type} (kindOf : α → Nat) (cmp : α → α → Ordering)
    (hcmp : ∀ a b, cmp a b = compare (kindOf a) (kindOf b)) (u1 u2 : α)
    (hk : kindOf u1 = kindOf u2) :
    ∀ l : List α, (∀ y ∈ l, kindOf y ≠ kindOf u1) →
      btreeInsert cmp u2 (btreeInsert cmp u1 l) = btreeInsert cmp u1 l
  | [], _ => by
    have h21 : cmp u2 u1 = Ordering.eq := by
      rw [hcmp, hk, Nat.compare_eq_eq]
    simp [btreeInsert, h21]
  | y :: ys, h => by
    have hyne := h y (List.mem_cons_self y ys)
    have ih := btreeInsert_absorb kindOf cmp hcmp u1 u2 hk ys
      (fun z hz => h z (List.mem_cons_of_mem y hz))
    have h21 : cmp u2 u1 = Ordering.eq := by
      rw [hcmp, hk, Nat.compare_eq_eq]
    rcases hcomp : compare (kindOf u1) (kindOf y) with _ | _ | _
    · have e1 : btreeInsert cmp u1 (y :: ys) = u1 :: y :: ys := by
        simp [btreeInsert, hcmp, hcomp]
      rw [e1]
      simp [btreeInsert, h21]
    · exact absurd (Nat.compare_eq_eq.mp hcomp).symm hyne
    · have hcomp2 : compare (kindOf u2) (kindOf y) = Ordering.gt := by
        rw [← hk]; exact hcomp
      simp [btreeInsert, hcmp, hcomp, hcomp2, ih]

/-- C8 counterexample: on a builder that already holds an unlock condition
of the kind being added, add-then-add does not leave the builder holding
the first of the two added conditions: the pre-existing one survives. -/
theorem builder_add_keeps_existing_counterexample :
    (UnlockCondition.timelock 2).kind = (UnlockCondition.timelock 3).kind
    ∧ ((((BasicOutputBuilder.new_with_amount 0).add_unlock_condition
          (UnlockCondition.timelock 1)).add_unlock_condition
          (UnlockCondition.timelock 2)).add_unlock_condition
          (UnlockCondition.timelock 3)).unlock_conditions = [UnlockCondition.timelock 1]
    ∧ UnlockCondition.timelock 1 ≠ UnlockCondition.timelock 2 :=
  ⟨rfl, rfl, by decide⟩

/-- C8 (amended): on a builder holding no unlock condition (resp. feature)
of the given kind, adding two of the same kind keeps the first and leaves
the set unchanged by the second add, while add-then-replace keeps the
last; this holds for unlock conditions and features of both the basic and
the foundry builder. -/
theorem builder_add_replace_by_kind (b : BasicOutputBuilder) (g : FoundryOutputBuilder)
    (u1 u2 : UnlockCondition) (f1 f2 : Feature)
    (hu : u1.kind = u2.kind) (hf : f1.kind = f2.kind)
    (hbu : ∀ y ∈ b.unlock_conditions, y.kind ≠ u1.kind)
    (hbf : ∀ y ∈ b.features, y.kind ≠ f1.kind)
    (hgu : ∀ y ∈ g.unlock_conditions, y.kind ≠ u1.kind)
    (hgf : ∀ y ∈ g.features, y.kind ≠ f1.kind) :
    (((b.add_unlock_condition u1).add_unlock_condition u2).unlock_conditions
        = (b.add_unlock_condition u1).unlock_conditions
      ∧ findByKind UnlockCondition.kind u1.kind
          ((b.add_unlock_condition u1).add_unlock_condition u2).unlock_conditions = some u1
      ∧ findByKind UnlockCondition.kind u2.kind
          ((b.add_unlock_condition u1).replace_unlock_condition u2).unlock_conditions
        = some u2)
    ∧ (((b.add_feature f1).add_feature f2).features = (b.add_feature f1).features
      ∧ findByKind Feature.kind f1.kind ((b.add_feature f1).add_feature f2).features = some f1
      ∧ findByKind Feature.kind f2.kind
          ((b.add_feature f1).replace_feature f2).features = some f2)
    ∧ (((g.add_unlock_condition u1).add_unlock_condition u2).unlock_conditions
        = (g.add_unlock_condition u1).unlock_conditions
      ∧ findByKind UnlockCondition.kind u1.kind
          ((g.add_unlock_condition u1).add_unlock_condition u2).unlock_conditions = some u1
      ∧ findByKind UnlockCondition.kind u2.kind
          ((g.add_unlock_condition u1).replace_unlock_condition u2).unlock_conditions
        = some u2)
    ∧ (((g.add_feature f1).add_feature f2).features = (g.add_feature f1).features
      ∧ findByKind Feature.kind f1.kind ((g.add_feature f1).add_feature f2).features = some f1
      ∧ findByKind Feature.kind f2.kind
          ((g.add_feature f1).replace_feature f2).features = some f2) := by
  have hcu : ∀ a b : UnlockCondition, UnlockCondition.cmp a b = compare a.kind b.kind :=
    fun _ _ => rfl
  have hcf : ∀ a b : Feature, Feature.cmp a b = compare a.kind b.kind :=
    fun _ _ => rfl
  refine ⟨⟨?_, ?_, ?_⟩, ⟨?_, ?_, ?_⟩, ⟨?_, ?_, ?_⟩, ⟨?_, ?_, ?_⟩⟩
  · exact btreeInsert_absorb UnlockCondition.kind UnlockCondition.cmp hcu u1 u2 hu
      b.unlock_conditions hbu
  · show findByKind UnlockCondition.kind u1.kind
      (btreeInsert UnlockCondition.cmp u2 (btreeInsert UnlockCondition.cmp u1
        b.unlock_conditions)) = some u1
    rw [btreeInsert_absorb UnlockCondition.kind UnlockCondition.cmp hcu u1 u2 hu
      b.unlock_conditions hbu]
    exact find_btreeInsert_fresh UnlockCondition.kind UnlockCondition.cmp hcu u1
      b.unlock_conditions hbu
  · exact find_btreeReplace UnlockCondition.kind UnlockCondition.cmp hcu u2 _
  · exact btreeInsert_absorb Feature.kind Feature.cmp hcf f1 f2 hf b.features hbf
  · show findByKind Feature.kind f1.kind
      (btreeInsert Feature.cmp f2 (btreeInsert Feature.cmp f1 b.features)) = some f1
    rw [btreeInsert_absorb Feature.kind Feature.cmp hcf f1 f2 hf b.features hbf]
    exact find_btreeInsert_fresh Feature.kind Feature.cmp hcf f1 b.features hbf
  · exact find_btreeReplace Feature.kind Feature.cmp hcf f2 _
  · exact btreeInsert_absorb UnlockCondition.kind UnlockCondition.cmp hcu u1 u2 hu
      g.unlock_conditions hgu
  · show findByKind UnlockCondition.kind u1.kind
      (btreeInsert UnlockCondition.cmp u2 (btreeInsert UnlockCondition.cmp u1
        g.unlock_conditions)) = some u1
    rw [btreeInsert_absorb UnlockCondition.kind UnlockCondition.cmp hcu u1 u2 hu
      g.unlock_conditions hgu]
    exact find_btreeInsert_fresh UnlockCondition.kind UnlockCondition.cmp hcu u1
      g.unlock_conditions hgu
  · exact find_btreeReplace UnlockCondition.kind UnlockCondition.cmp hcu u2 _
  · exact btreeInsert_absorb Feature.kind Feature.cmp hcf f1 f2 hf g.features hgf
  · show findByKind Feature.kind f1.kind
      (btreeInsert Feature.cmp f2 (btreeInsert Feature.cmp f1 g.features)) = some f1
    rw [btreeInsert_absorb Feature.kind Feature.cmp hcf f1 f2 hf g.features hgf]
    exact find_btreeInsert_fresh Feature.kind Feature.cmp hcf f1 g.features hgf
  · exact find_btreeReplace Feature.kind Feature.cmp hcf f2 _

/-- C8 witness: on empty builders, adding timelock 5 then timelock 6 keeps
timelock 5, and add-then-replace keeps timelock 6. -/
theorem builder_add_replace_by_kind_witness :
    (((BasicOutputBuilder.new_with_amount 0).add_unlock_condition
        (UnlockCondition.timelock 5)).add_unlock_condition
        (UnlockCondition.timelock 6)).unlock_conditions = [UnlockCondition.timelock 5]
    ∧ (((BasicOutputBuilder.new_with_amount 0).add_unlock_condition
        (UnlockCondition.timelock 5)).replace_unlock_condition
        (UnlockCondition.timelock 6)).unlock_conditions = [UnlockCondition.timelock 6] := by
  obtain ⟨⟨e1, e2, e3⟩, _, _, _⟩ := builder_add_replace_by_kind
    (BasicOutputBuilder.new_with_amount 0)
    (FoundryOutputBuilder.new_with_amount 0 1 (TokenScheme.simple ⟨0, 0, 1⟩))
    (UnlockCondition.timelock 5) (UnlockCondition.timelock 6)
    (Feature.metadata [1]) (Feature.metadata [2]) rfl rfl
    (by intro y hy; simp [BasicOutputBuilder.new_with_amount] at hy)
    (by intro y hy; simp [BasicOutputBuilder.new_with_amount] at hy)
    (by intro y hy; simp [FoundryOutputBuilder.new_with_amount] at hy)
    (by intro y hy; simp [FoundryOutputBuilder.new_with_amount] at hy)
  exact ⟨by rw [e1]; rfl, rfl⟩

/-- C10: `simple_deposit_address` returns the address exactly when the
unlock conditions are a single Address condition and there are no native
tokens and no features; in every other case it returns none. -/
theorem basic_simple_deposit_address (o : BasicOutput) (a : Address) :
    o.simple_deposit_address = some a
      ↔ o.unlock_conditions = [UnlockCondition.address a]
        ∧ o.native_tokens = [] ∧ o.features = [] := by
  obtain ⟨am, mn, nts, ucs, fs⟩ := o
  rcases ucs with _ | ⟨u, _ | ⟨v, rest⟩⟩
  · simp [BasicOutput.simple_deposit_address]
  · cases u <;>
      simp [BasicOutput.simple_deposit_address, List.isEmpty_iff] <;>
      aesop
  · cases u <;> simp [BasicOutput.simple_deposit_address]

/-- C10 witness: a basic output holding exactly one Address unlock
condition, no native tokens and no features exposes its address. -/
theorem basic_simple_deposit_address_witness :
    sampleBasic.simple_deposit_address = some sampleAddress :=
  (basic_simple_deposit_address sampleBasic sampleAddress).mpr ⟨rfl, rfl, rfl⟩

/-- A successful `UnlockConditions::from_set` returns its input. -/
theorem uc_from_set_ok {l l' : List UnlockCondition}
    (h : UnlockConditions.from_set l = Except.ok l') : l' = l := by
  unfold UnlockConditions.from_set at h
  split at h
  · injection h with h2
    exact h2.symm
  · cases h

/-- A successful `Features::from_set` returns its input. -/
theorem features_from_set_ok {l l' : List Feature}
    (h : Features.from_set l = Except.ok l') : l' = l := by
  unfold Features.from_set at h
  split at h
  · injection h with h2
    exact h2.symm
  · cases h

/-- A successful `NativeTokens::from_set` returns its input. -/
theorem native_tokens_from_set_ok {l l' : List NativeToken}
    (h : NativeTokens.from_set l = Except.ok l') : l' = l := by
  unfold NativeTokens.from_set at h
  split at h
  · injection h with h2
    exact h2.symm
  · cases h

/-- Shape of a successful basic finish: the output carries the builder's
collections unchanged and the amount resolved from the policy. -/
theorem basic_finish_ok (b : BasicOutputBuilder) (o : BasicOutput)
    (h : b.finish = Except.ok o) :
    o.mana = b.mana ∧ o.native_tokens = b.native_tokens
      ∧ o.unlock_conditions = b.unlock_conditions ∧ o.features = b.features
      ∧ o.amount = (match b.amount with
          | OutputBuilderAmount.amount a => a
          | OutputBuilderAmount.minimumStorageDeposit rs => b.rent_cost rs) := by
  unfold BasicOutputBuilder.finish at h
  rcases hv1 : UnlockConditions.from_set b.unlock_conditions with e | uc
  · rw [hv1] at h
    simp at h
  rw [hv1] at h
  dsimp only at h
  rcases hv2 : verify_unlock_conditions_basic uc with e | u
  · rw [hv2] at h
    simp at h
  rw [hv2] at h
  dsimp only at h
  rcases hv3 : Features.from_set b.features with e | fs
  · rw [hv3] at h
    simp at h
  rw [hv3] at h
  dsimp only at h
  rcases hv4 : verify_allowed_features fs BasicOutput.ALLOWED_FEATURES with e | u2
  · rw [hv4] at h
    simp at h
  rw [hv4] at h
  dsimp only at h
  rcases hv5 : NativeTokens.from_set b.native_tokens with e | nts
  · rw [hv5] at h
    simp at h
  rw [hv5] at h
  dsimp only at h
  simp only [Except.ok.injEq] at h
  subst h
  rw [uc_from_set_ok hv1, features_from_set_ok hv3, native_tokens_from_set_ok hv5]
  exact ⟨rfl, rfl, rfl, rfl, rfl⟩

/-- Shape of a successful foundry finish: the output carries the builder's
fields unchanged and the amount resolved from the policy (the rent cost of
the output for MinimumStorageDeposit, independent of the placeholder
amount). -/
theorem foundry_finish_ok (b : FoundryOutputBuilder) (f : FoundryOutput)
    (h : b.finish = Except.ok f) :
    f.native_tokens = b.native_tokens ∧ f.serial_number = b.serial_number
      ∧ f.token_scheme = b.token_scheme
      ∧ f.unlock_conditions = b.unlock_conditions ∧ f.features = b.features
      ∧ f.immutable_features = b.immutable_features
      ∧ f.amount = (match b.amount with
          | OutputBuilderAmount.amount a => a
          | OutputBuilderAmount.minimumStorageDeposit rs =>
            rentCostOf rs (foundryFieldsWeight rs b.native_tokens b.token_scheme
              b.unlock_conditions b.features b.immutable_features)) := by
  unfold FoundryOutputBuilder.finish at h
  by_cases c0 : b.serial_number = 0
  · rw [if_pos c0] at h
    cases h
  rw [if_neg c0] at h
  rcases hv1 : UnlockConditions.from_set b.unlock_conditions with e | uc
  · rw [hv1] at h
    simp at h
  rw [hv1] at h
  dsimp only at h
  rcases hv2 : verify_unlock_conditions_foundry uc with e | u
  · rw [hv2] at h
    simp at h
  rw [hv2] at h
  dsimp only at h
  rcases hv3 : Features.from_set b.features with e | fs
  · rw [hv3] at h
    simp at h
  rw [hv3] at h
  dsimp only at h
  rcases hv4 : verify_allowed_features fs FoundryOutput.ALLOWED_FEATURES with e | u2
  · rw [hv4] at h
    simp at h
  rw [hv4] at h
  dsimp only at h
  rcases hv5 : Features.from_set b.immutable_features with e | ifs
  · rw [hv5] at h
    simp at h
  rw [hv5] at h
  dsimp only at h
  rcases hv6 : verify_allowed_features ifs FoundryOutput.ALLOWED_FEATURES with e | u3
  · rw [hv6] at h
    simp at h
  rw [hv6] at h
  dsimp only at h
  rcases hv7 : NativeTokens.from_set b.native_tokens with e | nts
  · rw [hv7] at h
    simp at h
  rw [hv7] at h
  dsimp only at h
  simp only [Except.ok.injEq] at h
  subst h
  rw [uc_from_set_ok hv1, features_from_set_ok hv3, features_from_set_ok hv5,
    native_tokens_from_set_ok hv7]
  refine ⟨rfl, rfl, rfl, rfl, rfl, rfl, ?_⟩
  simp [FoundryOutput.rent_cost, uc_from_set_ok hv1, features_from_set_ok hv3,
    features_from_set_ok hv5, native_tokens_from_set_ok hv7]

/-- C6: an output finished under the MinimumStorageDeposit policy carries
an amount equal to its own rent cost under the same rent structure (the
amount has a fixed encoded width, so it does not influence the weighted
byte size), for both basic and foundry outputs. -/
theorem minimum_storage_deposit_fixed_point :
    (∀ (b : BasicOutputBuilder) (rs : RentStructure) (o : BasicOutput),
      b.amount = OutputBuilderAmount.minimumStorageDeposit rs →
      b.finish = Except.ok o → o.amount = o.rent_cost rs)
    ∧ (∀ (b : FoundryOutputBuilder) (rs : RentStructure) (f : FoundryOutput),
      b.amount = OutputBuilderAmount.minimumStorageDeposit rs →
      b.finish = Except.ok f → f.amount = f.rent_cost rs) := by
  constructor
  · intro b rs o ha hf
    obtain ⟨hm, hn, hu, hfe, ham⟩ := basic_finish_ok b o hf
    rw [ha] at ham
    rw [ham]
    simp [BasicOutputBuilder.rent_cost, BasicOutput.rent_cost, hn, hu, hfe]
  · intro b rs f ha hf
    obtain ⟨hn, hs, ht, hu, hfe, hi, ham⟩ := foundry_finish_ok b f hf
    rw [ha] at ham
    rw [ham]
    simp [FoundryOutput.rent_cost, hn, ht, hu, hfe, hi]

/-- C6 witness: a basic and a foundry builder under the
MinimumStorageDeposit policy finish into outputs whose amounts equal their
own rent costs. -/
theorem minimum_storage_deposit_fixed_point_witness :
    (∃ o : BasicOutput,
      ((BasicOutputBuilder.new_with_minimum_storage_deposit sampleRent).add_unlock_condition
        (UnlockCondition.address sampleAddress)).finish = Except.ok o
      ∧ o.amount = o.rent_cost sampleRent)
    ∧ (∃ f : FoundryOutput,
      ((FoundryOutputBuilder.new_with_minimum_storage_deposit sampleRent 1
          (TokenScheme.simple ⟨0, 0, 1⟩)).add_unlock_condition
        (UnlockCondition.immutableAliasAddress 7)).finish = Except.ok f
      ∧ f.amount = f.rent_cost sampleRent) := by
  constructor
  · obtain ⟨o, ho⟩ : ∃ o, ((BasicOutputBuilder.new_with_minimum_storage_deposit
        sampleRent).add_unlock_condition
        (UnlockCondition.address sampleAddress)).finish = Except.ok o := ⟨_, rfl⟩
    exact ⟨o, ho, minimum_storage_deposit_fixed_point.1 _ sampleRent o rfl ho⟩
  · obtain ⟨f, hf⟩ : ∃ f, ((FoundryOutputBuilder.new_with_minimum_storage_deposit
        sampleRent 1 (TokenScheme.simple ⟨0, 0, 1⟩)).add_unlock_condition
        (UnlockCondition.immutableAliasAddress 7)).finish = Except.ok f := ⟨_, rfl⟩
    exact ⟨f, hf, minimum_storage_deposit_fixed_point.2 _ sampleRent f rfl hf⟩

/-- C7: on a builder with a fixed amount policy,
`with_sufficient_storage_deposit` always succeeds; it returns the builder
unchanged when the amount already covers the rent cost, and otherwise sets
the amount to the rent cost recomputed after adding a StorageDepositReturn
condition and installs a StorageDepositReturn condition returning exactly
that recomputed rent cost minus the original amount. -/
theorem with_sufficient_storage_deposit_spec (b : BasicOutputBuilder) (ra : Address)
    (rs : RentStructure) (ts a : Nat) (ha : b.amount = OutputBuilderAmount.amount a) :
    ∃ b2, b.with_sufficient_storage_deposit ra rs ts = Except.ok b2
      ∧ (b.rent_cost rs ≤ a → b2 = b)
      ∧ (a < b.rent_cost rs →
          b2.amount = OutputBuilderAmount.amount
            ((b.add_unlock_condition
              (UnlockCondition.storageDepositReturn ra 0)).rent_cost rs)
          ∧ findByKind UnlockCondition.kind 1 b2.unlock_conditions
              = some (UnlockCondition.storageDepositReturn ra
                  ((b.add_unlock_condition
                    (UnlockCondition.storageDepositReturn ra 0)).rent_cost rs - a))) := by
  unfold BasicOutputBuilder.with_sufficient_storage_deposit
  rw [ha]
  dsimp only
  by_cases hlt : a < b.rent_cost rs
  · rw [if_pos hlt]
    refine ⟨_, rfl, fun hge => absurd hlt (by omega), fun _ => ⟨rfl, ?_⟩⟩
    exact find_btreeReplace UnlockCondition.kind UnlockCondition.cmp (fun _ _ => rfl)
      (UnlockCondition.storageDepositReturn ra
        ((b.add_unlock_condition (UnlockCondition.storageDepositReturn ra 0)).rent_cost rs
          - a)) _
  · rw [if_neg hlt]
    exact ⟨b, rfl, fun _ => rfl, fun hl => absurd hl hlt⟩

/-- C7 witness: on a zero-amount basic builder the deposit is synthesized:
the amount becomes the recomputed rent cost and the StorageDepositReturn
condition returns that rent cost minus 0. -/
theorem with_sufficient_storage_deposit_spec_witness :
    (∃ b2, (BasicOutputBuilder.new_with_amount 0).with_sufficient_storage_deposit
        sampleAddress sampleRent 1000 = Except.ok b2
      ∧ ((BasicOutputBuilder.new_with_amount 0).rent_cost sampleRent ≤ 0 →
          b2 = BasicOutputBuilder.new_with_amount 0)
      ∧ (0 < (BasicOutputBuilder.new_with_amount 0).rent_cost sampleRent →
          b2.amount = OutputBuilderAmount.amount
            (((BasicOutputBuilder.new_with_amount 0).add_unlock_condition
              (UnlockCondition.storageDepositReturn sampleAddress 0)).rent_cost sampleRent)
          ∧ findByKind UnlockCondition.kind 1 b2.unlock_conditions
              = some (UnlockCondition.storageDepositReturn sampleAddress
                  (((BasicOutputBuilder.new_with_amount 0).add_unlock_condition
                    (UnlockCondition.storageDepositReturn sampleAddress 0)).rent_cost
                      sampleRent - 0))))
    ∧ 0 < (BasicOutputBuilder.new_with_amount 0).rent_cost sampleRent :=
  ⟨with_sufficient_storage_deposit_spec (BasicOutputBuilder.new_with_amount 0)
    sampleAddress sampleRent 1000 0 rfl, by decide⟩

/-- C9: finishing a builder constructed from a reference to a valid
finished output reproduces the output exactly, for both basic and foundry
outputs. -/
theorem from_output_finish_roundtrip :
    (∀ o : BasicOutput, o.valid = true →
      (BasicOutputBuilder.from_output o).finish = Except.ok o)
    ∧ (∀ f : FoundryOutput, f.valid = true →
      (FoundryOutputBuilder.from_output f).finish = Except.ok f) := by
  constructor
  · intro o hv
    simp only [BasicOutput.valid, Bool.and_eq_true] at hv
    obtain ⟨⟨⟨⟨⟨h1, h2⟩, h3⟩, h4⟩, h5⟩, h6⟩ := hv
    have e1 := btreeOfList_native_tokens o.native_tokens h1
    have e2 := btreeOfList_unlock_conditions o.unlock_conditions h2
    have e3 := btreeOfList_features o.features h3
    have h4f : (UnlockConditions.address_condition o.unlock_conditions).isNone = false := by
      rcases hopt : UnlockConditions.address_condition o.unlock_conditions with _ | a
      · rw [hopt] at h4
        simp at h4
      · rfl
    have h5p : ∀ x ∈ o.unlock_conditions,
        x.kind ∈ BasicOutput.ALLOWED_UNLOCK_CONDITIONS := by simpa using h5
    have h6p : ∀ x ∈ o.features, x.kind ∈ BasicOutput.ALLOWED_FEATURES := by simpa using h6
    simp [BasicOutputBuilder.finish, BasicOutputBuilder.from_output, e1, e2, e3,
      UnlockConditions.from_set, Features.from_set, NativeTokens.from_set,
      verify_unlock_conditions_basic, verify_allowed_unlock_conditions,
      verify_allowed_features, h1, h2, h3, h4f]
    rw [if_pos h5p]
    dsimp only
    rw [if_pos h6p]
  · intro f hv
    simp only [FoundryOutput.valid, Bool.and_eq_true] at hv
    obtain ⟨⟨⟨⟨⟨⟨⟨⟨h0, h1⟩, h2⟩, h3⟩, h4⟩, h5⟩, h6⟩, h7⟩, h8⟩ := hv
    have h0n : f.serial_number ≠ 0 := by simpa using h0
    have e1 := btreeOfList_native_tokens f.native_tokens h1
    have e2 := btreeOfList_unlock_conditions f.unlock_conditions h2
    have e3 := btreeOfList_features f.features h3
    have e4 := btreeOfList_features f.immutable_features h4
    have h5f : (UnlockConditions.immutable_alias_address f.unlock_conditions).isNone
        = false := by
      rcases hopt : UnlockConditions.immutable_alias_address f.unlock_conditions with _ | a
      · rw [hopt] at h5
        simp at h5
      · rfl
    have h6p : ∀ x ∈ f.unlock_conditions,
        x.kind ∈ FoundryOutput.ALLOWED_UNLOCK_CONDITIONS := by simpa using h6
    have h7p : ∀ x ∈ f.features, x.kind ∈ FoundryOutput.ALLOWED_FEATURES := by simpa using h7
    have h8p : ∀ x ∈ f.immutable_features, x.kind ∈ FoundryOutput.ALLOWED_FEATURES := by
      simpa using h8
    simp [FoundryOutputBuilder.finish, FoundryOutputBuilder.from_output, e1, e2, e3, e4,
      UnlockConditions.from_set, Features.from_set, NativeTokens.from_set,
      verify_unlock_conditions_foundry, verify_allowed_unlock_conditions,
      verify_allowed_features, h0n, h1, h2, h3, h4, h5f]
    rw [if_pos h6p]
    dsimp only
    rw [if_pos h7p]
    dsimp only
    rw [if_pos h8p]

/-- C9 witness: a concrete valid basic output and a concrete valid foundry
output are reproduced by building from them and finishing. -/
theorem from_output_finish_roundtrip_witness :
    (BasicOutputBuilder.from_output sampleBasic).finish = Except.ok sampleBasic
    ∧ (FoundryOutputBuilder.from_output (sampleFoundry 100 0)).finish
      = Except.ok (sampleFoundry 100 0) :=
  ⟨from_output_finish_roundtrip.1 sampleBasic (by decide),
   from_output_finish_roundtrip.2 (sampleFoundry 100 0) (by decide)⟩

/-- Little-endian round trip: unpacking a packed integer that fits the
width returns it, tail preserved. -/
theorem unpackLE_packLE : ∀ (w n : Nat), n < 256 ^ w →
    ∀ rest, unpackLE w (packLE w n ++ rest) = some (n, rest)
  | 0, n, h, rest => by
    have hn : n = 0 := by simpa using Nat.lt_one_iff.mp (by simpa using h)
    subst hn
    rfl
  | w + 1, n, h, rest => by
    have hdiv : n / 256 < 256 ^ w := by
      rw [Nat.div_lt_iff_lt_mul (by norm_num)]
      calc n < 256 ^ (w + 1) := h
        _ = 256 ^ w * 256 := by ring
    have ih := unpackLE_packLE w (n / 256) hdiv rest
    simp [packLE, unpackLE, ih, Nat.mod_add_div]

/-- Raw-byte round trip: reading back exactly the bytes written returns
them, tail preserved. -/
theorem readBytes_append : ∀ (d rest : List Nat),
    readBytes d.length (d ++ rest) = some (d, rest)
  | [], _ => rfl
  | b :: d, rest => by simp [readBytes, readBytes_append d rest]

/-- Address round trip under the byte-range bound. -/
theorem address_unpack_pack (a : Address) (h : a.encodable = true) (rest : List Nat) :
    Address.unpack (a.pack ++ rest) = some (a, rest) := by
  cases a <;> simp only [Address.encodable, decide_eq_true_eq] at h <;>
    simp [Address.pack, Address.unpack, unpackLE_packLE 32 _ h rest]

/-- Unlock-condition round trip under the byte-range bounds and the token
supply. -/
theorem uc_unpack_pack (params : ProtocolParameters) (u : UnlockCondition)
    (h : UnlockCondition.encodable params.token_supply u = true) (rest : List Nat) :
    UnlockCondition.unpack params (u.pack ++ rest) = some (u, rest) := by
  cases u with
  | address a =>
    simp only [UnlockCondition.encodable] at h
    simp [UnlockCondition.pack, UnlockCondition.unpack, address_unpack_pack a h]
  | storageDepositReturn a amt =>
    simp only [UnlockCondition.encodable, Bool.and_eq_true, decide_eq_true_eq] at h
    obtain ⟨⟨ha, hamt⟩, hts⟩ := h
    simp [UnlockCondition.pack, UnlockCondition.unpack, List.append_assoc,
      address_unpack_pack a ha, unpackLE_packLE 8 amt hamt, hts]
  | timelock t =>
    simp only [UnlockCondition.encodable, decide_eq_true_eq] at h
    simp [UnlockCondition.pack, UnlockCondition.unpack, unpackLE_packLE 4 t h]
  | expiration a t =>
    simp only [UnlockCondition.encodable, Bool.and_eq_true, decide_eq_true_eq] at h
    obtain ⟨ha, ht⟩ := h
    simp [UnlockCondition.pack, UnlockCondition.unpack, List.append_assoc,
      address_unpack_pack a ha, unpackLE_packLE 4 t ht]
  | immutableAliasAddress i =>
    simp only [UnlockCondition.encodable, decide_eq_true_eq] at h
    have hi : (Address.aliasAddr i).encodable = true := by
      simp only [Address.encodable, decide_eq_true_eq]
      exact h
    simp [UnlockCondition.pack, UnlockCondition.unpack, address_unpack_pack _ hi]

/-- Feature round trip under the byte-range bounds. -/
theorem feature_unpack_pack (x : Feature) (h : x.encodable = true) (rest : List Nat) :
    Feature.unpack (x.pack ++ rest) = some (x, rest) := by
  cases x with
  | sender a =>
    simp only [Feature.encodable] at h
    simp [Feature.pack, Feature.unpack, address_unpack_pack a h]
  | issuer a =>
    simp only [Feature.encodable] at h
    simp [Feature.pack, Feature.unpack, address_unpack_pack a h]
  | metadata d =>
    simp only [Feature.encodable, decide_eq_true_eq] at h
    simp [Feature.pack, Feature.unpack, List.append_assoc,
      unpackLE_packLE 2 d.length h, readBytes_append d rest]
  | tag d =>
    simp only [Feature.encodable, decide_eq_true_eq] at h
    have h1 : d.length < 256 ^ 1 := by simpa using h
    simp [Feature.pack, Feature.unpack, List.append_assoc,
      unpackLE_packLE 1 d.length h1, readBytes_append d rest]

/-- Token-scheme round trip under the byte-range bounds and the syntactic
rule. -/
theorem token_scheme_unpack_pack (t : TokenScheme)
    (h : t.simpleScheme.encodable = true) (rest : List Nat) :
    TokenScheme.unpack (t.pack ++ rest) = some (t, rest) := by
  obtain ⟨s⟩ := t
  simp only [TokenScheme.simpleScheme, SimpleTokenScheme.encodable,
    Bool.and_eq_true, decide_eq_true_eq] at h
  obtain ⟨⟨⟨⟨⟨h1, h2⟩, h3⟩, h4⟩, h5⟩, h6⟩ := h
  simp [TokenScheme.pack, TokenScheme.unpack, List.append_assoc,
    unpackLE_packLE 32 _ h1, unpackLE_packLE 32 _ h2, unpackLE_packLE 32 _ h3,
    h4, h5, h6]

/-- Native-token round trip under the byte-range bounds. -/
theorem native_token_unpack_pack (t : NativeToken) (h : t.encodable = true)
    (rest : List Nat) : NativeToken.unpack (t.pack ++ rest) = some (t, rest) := by
  simp only [NativeToken.encodable, Bool.and_eq_true, decide_eq_true_eq] at h
  obtain ⟨⟨h1, h2⟩, h3⟩ := h
  simp [NativeToken.pack, NativeToken.unpack, List.append_assoc,
    unpackLE_packLE 38 _ h1, unpackLE_packLE 32 _ h2, h3]

/-- Element-sequence round trip: decoding exactly the encoded count from
the concatenated encodings returns the list, tail preserved. -/
theorem unpackMany_pack {α : Type} (u : List Nat → Option (α × List Nat))
    (p : α → List Nat) :
    ∀ (l : List α), (∀ x ∈ l, ∀ r, u (p x ++ r) = some (x, r)) →
      ∀ rest, unpackMany u l.length ((l.map p).join ++ rest) = some (l, rest)
  | [], _, rest => by simp [unpackMany]
  | x :: l, h, rest => by
    have hx := h x (List.mem_cons_self x l)
    have ih := unpackMany_pack u p l (fun z hz => h z (List.mem_cons_of_mem x hz)) rest
    simp [unpackMany, List.append_assoc, hx, ih]

/-- Native-token collection round trip under count, range and sortedness
validity. -/
theorem native_tokens_unpack_pack (l : List NativeToken)
    (hlen : l.length < 256) (henc : l.all NativeToken.encodable = true)
    (hsort : strictSortedBy NativeToken.token_id l = true) (rest : List Nat) :
    NativeTokens.unpack (packPrefixedU8 NativeToken.pack l ++ rest) = some (l, rest) := by
  have helem : ∀ x ∈ l, ∀ r, NativeToken.unpack (NativeToken.pack x ++ r) = some (x, r) :=
    fun x hx => native_token_unpack_pack x (List.all_eq_true.mp henc x hx)
  have h256 : l.length < 256 ^ 1 := by simpa using hlen
  simp [NativeTokens.unpack, packPrefixedU8, List.append_assoc,
    unpackLE_packLE 1 l.length h256,
    unpackMany_pack NativeToken.unpack NativeToken.pack l helem rest, hsort]

/-- Unlock-condition collection round trip under count, range and
sortedness validity. -/
theorem ucs_unpack_pack (params : ProtocolParameters) (l : List UnlockCondition)
    (hlen : l.length < 256)
    (henc : l.all (UnlockCondition.encodable params.token_supply) = true)
    (hsort : strictSortedBy UnlockCondition.kind l = true) (rest : List Nat) :
    UnlockConditions.unpack params (packPrefixedU8 UnlockCondition.pack l ++ rest)
      = some (l, rest) := by
  have helem : ∀ x ∈ l, ∀ r,
      UnlockCondition.unpack params (UnlockCondition.pack x ++ r) = some (x, r) :=
    fun x hx => uc_unpack_pack params x (List.all_eq_true.mp henc x hx)
  have h256 : l.length < 256 ^ 1 := by simpa using hlen
  simp [UnlockConditions.unpack, packPrefixedU8, List.append_assoc,
    unpackLE_packLE 1 l.length h256,
    unpackMany_pack (UnlockCondition.unpack params) UnlockCondition.pack l helem rest,
    hsort]

/-- Feature collection round trip under count, range and sortedness
validity. -/
theorem features_unpack_pack (l : List Feature)
    (hlen : l.length < 256) (henc : l.all Feature.encodable = true)
    (hsort : strictSortedBy Feature.kind l = true) (rest : List Nat) :
    Features.unpack (packPrefixedU8 Feature.pack l ++ rest) = some (l, rest) := by
  have helem : ∀ x ∈ l, ∀ r, Feature.unpack (Feature.pack x ++ r) = some (x, r) :=
    fun x hx => feature_unpack_pack x (List.all_eq_true.mp henc x hx)
  have h256 : l.length < 256 ^ 1 := by simpa using hlen
  simp [Features.unpack, packPrefixedU8, List.append_assoc,
    unpackLE_packLE 1 l.length h256,
    unpackMany_pack Feature.unpack Feature.pack l helem rest, hsort]

/-- C5: for every valid output under protocol parameters, unpacking the
bytes produced by packing it yields the output again with all input
consumed, for both basic and foundry outputs. -/
theorem pack_unpack_roundtrip :
    (∀ (params : ProtocolParameters) (o : BasicOutput),
      BasicOutput.packValid params o = true →
      BasicOutput.unpack params (BasicOutput.pack o) = some (o, []))
    ∧ (∀ (params : ProtocolParameters) (f : FoundryOutput),
      FoundryOutput.packValid params f = true →
      FoundryOutput.unpack params (FoundryOutput.pack f) = some (f, [])) := by
  constructor
  · intro params o hv
    simp only [BasicOutput.packValid, Bool.and_eq_true, decide_eq_true_eq] at hv
    obtain ⟨⟨⟨⟨⟨⟨⟨⟨⟨⟨⟨⟨⟨⟨h1, h2⟩, h3⟩, h4⟩, h5⟩, h6⟩, h7⟩, h8⟩, h9⟩,
      h10⟩, h11⟩, h12⟩, h13⟩, h14⟩, h15⟩ := hv
    have h11p : ∀ x ∈ o.unlock_conditions,
        x.kind ∈ BasicOutput.ALLOWED_UNLOCK_CONDITIONS := by simpa using h11
    have h15p : ∀ x ∈ o.features, x.kind ∈ BasicOutput.ALLOWED_FEATURES := by
      simpa using h15
    have e0 : BasicOutput.pack o = BasicOutput.pack o ++ [] := (List.append_nil _).symm
    rw [e0]
    simp only [BasicOutput.pack, List.append_assoc, BasicOutput.unpack]
    rw [unpackLE_packLE 8 o.amount h1]
    dsimp only
    rw [if_pos h2, unpackLE_packLE 8 o.mana h3]
    dsimp only
    rw [native_tokens_unpack_pack o.native_tokens h4 h5 h6]
    dsimp only
    rw [ucs_unpack_pack params o.unlock_conditions h7 h8 h9]
    dsimp only
    rw [if_pos (⟨h10, h11⟩ : _ ∧ _)]
    rw [features_unpack_pack o.features h12 h13 h14 []]
    dsimp only
    rw [if_pos h15]
  · intro params f hv
    simp only [FoundryOutput.packValid, Bool.and_eq_true, decide_eq_true_eq] at hv
    obtain ⟨⟨⟨⟨⟨⟨⟨⟨⟨⟨⟨⟨⟨⟨⟨⟨⟨⟨⟨h1, h2⟩, h3⟩, h4⟩, h5⟩, h6⟩, h7⟩, h8⟩, h9⟩,
      h10⟩, h11⟩, h12⟩, h13⟩, h14⟩, h15⟩, h16⟩, h17⟩, h18⟩, h19⟩, h20⟩ := hv
    have h12p : ∀ x ∈ f.unlock_conditions,
        x.kind ∈ FoundryOutput.ALLOWED_UNLOCK_CONDITIONS := by simpa using h12
    have h16p : ∀ x ∈ f.features, x.kind ∈ FoundryOutput.ALLOWED_FEATURES := by
      simpa using h16
    have h20p : ∀ x ∈ f.immutable_features,
        x.kind ∈ FoundryOutput.ALLOWED_FEATURES := by simpa using h20
    have e0 : FoundryOutput.pack f = FoundryOutput.pack f ++ [] := (List.append_nil _).symm
    rw [e0]
    simp only [FoundryOutput.pack, List.append_assoc, FoundryOutput.unpack]
    rw [unpackLE_packLE 8 f.amount h1]
    dsimp only
    rw [if_pos h2, native_tokens_unpack_pack f.native_tokens h3 h4 h5]
    dsimp only
    rw [unpackLE_packLE 4 f.serial_number h6]
    dsimp only
    rw [token_scheme_unpack_pack f.token_scheme h7]
    dsimp only
    rw [ucs_unpack_pack params f.unlock_conditions h8 h9 h10]
    dsimp only
    rw [if_pos (⟨h11, h12⟩ : _ ∧ _)]
    rw [features_unpack_pack f.features h13 h14 h15]
    dsimp only
    rw [if_pos h16]
    rw [features_unpack_pack f.immutable_features h17 h18 h19 []]
    dsimp only
    rw [if_pos h20]

/-- C5 witness: a concrete valid basic output and a concrete valid foundry
output round-trip through pack and unpack. -/
theorem pack_unpack_roundtrip_witness :
    BasicOutput.unpack ⟨10000, sampleRent⟩ (BasicOutput.pack sampleBasic)
      = some (sampleBasic, [])
    ∧ FoundryOutput.unpack ⟨10000, sampleRent⟩ (FoundryOutput.pack (sampleFoundry 100 0))
      = some (sampleFoundry 100 0, []) :=
  ⟨pack_unpack_roundtrip.1 ⟨10000, sampleRent⟩ sampleBasic (by decide),
   pack_unpack_roundtrip.2 ⟨10000, sampleRent⟩ (sampleFoundry 100 0) (by decide)⟩

end IotaSdk
